import Mathlib

/-!
# Verification of the HistoricalTicketData ingestion core

A shallow embedding, in Lean 4, of the data model and operations of the
hourly ticket-price ingestion service: the listings aggregator
(`supabase/functions/_shared/utils.ts`), the TE request signer and client
(`supabase/functions/_shared/te-api.ts`), the retry wrapper and active-event
filter (`supabase/functions/hourly-poller/core.ts`), the run-coordinator lock
protocol, run-row lifecycle and retention pass
(`supabase/functions/hourly-poller/index.ts`), the SEO URL builder
(`supabase/functions/_shared/olt-url.ts`) and the metadata refresher
(the `refresh-event-metadata` handler).

Modelling conventions:

* JavaScript numbers are modelled as exact rationals `ℚ`.  A value that may
  be `NaN` after JavaScript coercion (`typeof x === "number"` failing, or
  `parseFloat` returning `NaN`) is modelled as `Option ℚ`, `none` standing
  for the not-a-number outcome.  Two-decimal rounding (`x.toFixed(2)`)
  rounds half away from zero for positive values; prices here are positive,
  so it is modelled as exact half-up decimal rounding on `ℚ`.
* Timestamps that live in the database are modelled as integer epoch
  milliseconds.  Timestamp *strings* that the code parses with
  `new Date(s).getTime()` keep their string form, and the host date parser
  and formatter are explicit parameters (`DateOps`), since their behaviour
  is the JavaScript runtime's, not this repository's.
* Fallible host calls are modelled with `Except`/`Option`.
-/

namespace HTD

/-! ## Small JavaScript string helpers -/

/-- `String.prototype.toLowerCase` restricted to the character-wise map;
the phrases the aggregator searches for are ASCII, where this is exact. -/
def lowerStr (s : String) : String := ⟨s.data.map Char.toLower⟩

/-- Does `hay` start with `pat`? (list form of `String.startsWith`). -/
def listStartsWith : List Char → List Char → Bool
  | [], _ => true
  | _ :: _, [] => false
  | a :: as, b :: bs => a = b && listStartsWith as bs

/-- Does `hay` contain `pat` as a contiguous substring?
Models `String.prototype.includes`. -/
def listContainsSub (pat : List Char) : List Char → Bool
  | [] => listStartsWith pat []
  | b :: bs => listStartsWith pat (b :: bs) || listContainsSub pat bs

/-- `a.includes(b)` on strings. -/
def strIncludes (hay pat : String) : Bool := listContainsSub pat.data hay.data

/-! ## Two-decimal rounding (`parseFloat(x.toFixed(2))`) -/

/-- `Math.floor` on an exact rational, computably (`⌊q⌋ = q.num / q.den`). -/
def jsFloor (q : ℚ) : ℤ := q.num / q.den

theorem jsFloor_eq (q : ℚ) : jsFloor q = ⌊q⌋ := Rat.floor_def.symm

/-- Two-decimal half-up rounding: the model of `parseFloat(x.toFixed(2))`
for the positive prices the aggregator produces. -/
def round2 (q : ℚ) : ℚ := (jsFloor (q * 100 + 1 / 2) : ℚ) / 100

theorem round2_eq_round (q : ℚ) : round2 q = ((round (q * 100) : ℤ) : ℚ) / 100 := by
  rw [round2, jsFloor_eq, round_eq]

theorem round2_mono {q r : ℚ} (h : q ≤ r) : round2 q ≤ round2 r := by
  rw [round2, round2, jsFloor_eq, jsFloor_eq]
  have hf : (⌊q * 100 + 1 / 2⌋ : ℤ) ≤ ⌊r * 100 + 1 / 2⌋ :=
    Int.floor_mono (by linarith)
  have : ((⌊q * 100 + 1 / 2⌋ : ℤ) : ℚ) ≤ ((⌊r * 100 + 1 / 2⌋ : ℤ) : ℚ) :=
    Int.cast_le.mpr hf
  linarith

/-- Two-decimal rounding moves a value by at most half a cent. -/
theorem abs_round2_sub (q : ℚ) : |round2 q - q| ≤ 1 / 200 := by
  rw [round2_eq_round]
  have h := abs_sub_round (q * 100)
  rw [abs_sub_comm] at h
  have h2 : |((round (q * 100) : ℤ) : ℚ) / 100 - q| = |(round (q * 100) : ℤ) - q * 100| / 100 := by
    rw [← abs_of_pos (show (0:ℚ) < 100 by norm_num), ← abs_div]
    congr 1
    field_simp
    ring
  rw [h2]
  have h100 : (0:ℚ) < 100 := by norm_num
  calc |((round (q * 100) : ℤ) : ℚ) - q * 100| / 100 ≤ (1 / 2) / 100 :=
        (div_le_div_iff_of_pos_right h100).mpr h
    _ = 1 / 200 := by norm_num

/-! ## The aggregator (`_shared/utils.ts`, `aggregatePrices`, lines 113–181)

`retail_price` may arrive as a JSON number or a numeric string; the source
coerces it with `parseFloat` and rejects `NaN`.  The field is therefore
modelled as the coerced value: `some q` for a finite numeric outcome, `none`
for `NaN`/non-numeric.  Likewise `available_quantity` is `none` whenever
`typeof qty === "number"` would fail.  `splits` is `none` when the field is
absent (`listing.splits ?? []`). -/

structure Listing where
  type : String
  retail_price : Option ℚ
  available_quantity : Option ℚ
  splits : Option (List ℚ)
  public_notes : Option String
  notes : Option String

/-- The OLT non-buyable phrases (source: `badPhrases` in `isBuyableListing`). -/
def badPhrases : List String :=
  ["will be rejected",
   "accepted but not fulfilled",
   "will be accepted but not fulfilled",
   "will remain pending",
   "not fulfilled"]

/-- `String(listing.public_notes ?? listing.notes ?? "").toLowerCase()`. -/
def notesText (l : Listing) : String :=
  lowerStr (match l.public_notes with
    | some s => s
    | none => l.notes.getD "")

/-- A listing is buyable when its notes contain none of the bad phrases. -/
def isBuyableListing (l : Listing) : Bool :=
  !(badPhrases.any fun phrase => strIncludes (notesText l) phrase)

/-- The eligibility filter of `aggregatePrices` (step 1), in source order:
event type, buyable notes, valid price in (0, 100000), quantity in
[2, 10000), and `splits.includes(2)`. -/
def eligibleListing (l : Listing) : Bool :=
  if l.type ≠ "event" then false
  else if !isBuyableListing l then false
  else
    let hasValidPrice : Bool :=
      match l.retail_price with
      | some p => decide (0 < p) && decide (p < 100000)
      | none => false
    let hasValidQuantity : Bool :=
      match l.available_quantity with
      | some q => decide (2 ≤ q) && decide (q < 10000)
      | none => false
    let canPurchaseTwo : Bool := decide ((2 : ℚ) ∈ l.splits.getD [])
    hasValidPrice && hasValidQuantity && canPurchaseTwo

/-- Step 2 of `aggregatePrices`: coerce `retail_price` and keep finite
positive values (`typeof p === "number" && !isNaN(p) && p > 0`). -/
def priceOf (l : Listing) : Option ℚ :=
  match l.retail_price with
  | some p => if 0 < p then some p else none
  | none => none

/-- `Math.min(...prices)` for the nonempty price list (0 is never reached:
the aggregator only calls this on nonempty lists). -/
def listMin : List ℚ → ℚ
  | [] => 0
  | x :: xs => xs.foldl min x

/-- `Math.max(...prices)` for the nonempty price list. -/
def listMax : List ℚ → ℚ
  | [] => 0
  | x :: xs => xs.foldl max x

/-- `prices.reduce((sum, p) => sum + p, 0)`. -/
def jsSum (l : List ℚ) : ℚ := l.foldl (· + ·) 0

structure PriceAggregate where
  min_price : ℚ
  avg_price : ℚ
  max_price : ℚ
  listing_count : ℕ
deriving DecidableEq

/-- Step 1 of `aggregatePrices`: `listings.filter(...)`. -/
def eligibleOf (listings : List Listing) : List Listing :=
  listings.filter eligibleListing

/-- Step 2 of `aggregatePrices`: `eligibleListings.map(coerce).filter(valid)`. -/
def pricesOf (listings : List Listing) : List ℚ :=
  (eligibleOf listings).filterMap priceOf

/-- `aggregatePrices` (`_shared/utils.ts:127`): filter to eligible listings,
extract retail prices, return two-decimal-rounded min/avg/max and the
eligible count — or `null` when nothing survives. -/
def aggregatePrices (listings : List Listing) : Option PriceAggregate :=
  if listings.isEmpty then none
  else if (eligibleOf listings).isEmpty then none
  else if (pricesOf listings).isEmpty then none
  else
    some { min_price := round2 (listMin (pricesOf listings))
           avg_price := round2 (jsSum (pricesOf listings) / (pricesOf listings).length)
           max_price := round2 (listMax (pricesOf listings))
           listing_count := (eligibleOf listings).length }

/-- The eligibility predicate exactly as the specification words it
(§4.3): identical to `eligibleListing` except that it additionally demands
`available_quantity` be an *integer* (`q.den = 1`).  Kept separate so the
spec's wording can be compared against the code's filter. -/
def specEligibleListing (l : Listing) : Bool :=
  (l.type = "event") &&
  isBuyableListing l &&
  (match l.retail_price with
   | some p => decide (0 < p) && decide (p < 100000)
   | none => false) &&
  (match l.available_quantity with
   | some q => decide (q.den = 1) && decide (2 ≤ q) && decide (q < 10000)
   | none => false) &&
  decide ((2 : ℚ) ∈ l.splits.getD [])

/-! ## Facts about the aggregator -/

theorem foldl_min_le (as : List ℚ) (a : ℚ) : ∀ x ∈ a :: as, as.foldl min a ≤ x := by
  induction as generalizing a with
  | nil =>
      intro x hx
      simp only [List.mem_singleton] at hx
      simp [hx, listMin]
  | cons b bs ih =>
      intro x hx
      have hhead : bs.foldl min (min a b) ≤ min a b := ih (min a b) _ (List.mem_cons_self _ _)
      rcases List.mem_cons.mp hx with rfl | hx
      · exact le_trans hhead (min_le_left _ _)
      · rcases List.mem_cons.mp hx with rfl | hx
        · exact le_trans hhead (min_le_right _ _)
        · exact ih (min a b) x (List.mem_cons_of_mem _ hx)

theorem le_foldl_max (as : List ℚ) (a : ℚ) : ∀ x ∈ a :: as, x ≤ as.foldl max a := by
  induction as generalizing a with
  | nil =>
      intro x hx
      simp only [List.mem_singleton] at hx
      simp [hx, listMax]
  | cons b bs ih =>
      intro x hx
      have hhead : max a b ≤ bs.foldl max (max a b) := ih (max a b) _ (List.mem_cons_self _ _)
      rcases List.mem_cons.mp hx with rfl | hx
      · exact le_trans (le_max_left _ _) hhead
      · rcases List.mem_cons.mp hx with rfl | hx
        · exact le_trans (le_max_right _ _) hhead
        · exact ih (max a b) x (List.mem_cons_of_mem _ hx)

theorem listMin_le {l : List ℚ} (hne : l ≠ []) : ∀ x ∈ l, listMin l ≤ x := by
  cases l with
  | nil => exact absurd rfl hne
  | cons a as => simpa [listMin] using foldl_min_le as a

theorem le_listMax {l : List ℚ} (hne : l ≠ []) : ∀ x ∈ l, x ≤ listMax l := by
  cases l with
  | nil => exact absurd rfl hne
  | cons a as => simpa [listMax] using le_foldl_max as a

theorem jsSum_eq_sum (l : List ℚ) : jsSum l = l.sum := by
  have h : ∀ (l : List ℚ) (a : ℚ), l.foldl (· + ·) a = a + l.sum := by
    intro l
    induction l with
    | nil => intro a; simp
    | cons b bs ih => intro a; simp [List.foldl_cons, ih, List.sum_cons]; ring
  simpa [jsSum] using h l 0

/-- The arithmetic mean of a nonempty list sits above its minimum. -/
theorem listMin_le_avg {l : List ℚ} (hne : l ≠ []) :
    listMin l ≤ jsSum l / l.length := by
  have hlen : (0 : ℚ) < l.length := by
    have := List.length_pos.mpr hne
    exact_mod_cast this
  rw [le_div_iff₀ hlen, jsSum_eq_sum]
  have h := List.card_nsmul_le_sum (l := l) (n := listMin l) (listMin_le hne)
  rw [nsmul_eq_mul] at h
  linarith

/-- The arithmetic mean of a nonempty list sits below its maximum. -/
theorem avg_le_listMax {l : List ℚ} (hne : l ≠ []) :
    jsSum l / l.length ≤ listMax l := by
  have hlen : (0 : ℚ) < l.length := by
    have := List.length_pos.mpr hne
    exact_mod_cast this
  rw [div_le_iff₀ hlen, jsSum_eq_sum]
  have h := List.sum_le_card_nsmul (l := l) (n := listMax l) (le_listMax hne)
  rw [nsmul_eq_mul] at h
  linarith

/-- An eligible listing always yields a price in step 2: its coerced
`retail_price` is a finite positive number. -/
theorem eligible_priceOf_isSome {l : Listing} (h : eligibleListing l = true) :
    (priceOf l).isSome := by
  unfold eligibleListing at h
  split at h
  · exact absurd h (by simp)
  · split at h
    · exact absurd h (by simp)
    · simp only [Bool.and_eq_true] at h
      obtain ⟨⟨hp, _⟩, _⟩ := h
      unfold priceOf
      cases hrp : l.retail_price with
      | none => rw [hrp] at hp; exact absurd hp (by simp)
      | some p =>
          rw [hrp] at hp
          simp only [Bool.and_eq_true, decide_eq_true_eq] at hp
          simp [hp.1]

theorem length_filterMap_of_isSome {α β : Type} (f : α → Option β) :
    ∀ l : List α, (∀ x ∈ l, (f x).isSome) → (l.filterMap f).length = l.length := by
  intro l
  induction l with
  | nil => intro _; rfl
  | cons a as ih =>
      intro h
      have ha := h a (List.mem_cons_self _ _)
      cases hfa : f a with
      | none => rw [hfa] at ha; exact absurd ha (by simp)
      | some b =>
          rw [List.filterMap_cons, hfa]
          simp [ih fun x hx => h x (List.mem_cons_of_mem _ hx)]

theorem pricesOf_length (listings : List Listing) :
    (pricesOf listings).length = (eligibleOf listings).length := by
  refine length_filterMap_of_isSome priceOf _ fun x hx => ?_
  exact eligible_priceOf_isSome (List.of_mem_filter hx)

theorem pricesOf_ne_nil {listings : List Listing} (h : eligibleOf listings ≠ []) :
    pricesOf listings ≠ [] := by
  intro hc
  apply h
  have := pricesOf_length listings
  rw [hc] at this
  exact List.length_eq_zero.mp this.symm

/-- Unfolding `aggregatePrices` on a successful return. -/
theorem aggregatePrices_some_spec {listings : List Listing} {r : PriceAggregate}
    (h : aggregatePrices listings = some r) :
    pricesOf listings ≠ [] ∧
    r.min_price = round2 (listMin (pricesOf listings)) ∧
    r.avg_price = round2 (jsSum (pricesOf listings) / (pricesOf listings).length) ∧
    r.max_price = round2 (listMax (pricesOf listings)) ∧
    r.listing_count = (eligibleOf listings).length := by
  unfold aggregatePrices at h
  split at h
  · exact absurd h (by simp)
  · split at h
    · exact absurd h (by simp)
    · split at h
      · exact absurd h (by simp)
      · rename_i hpr
        refine ⟨by simpa using hpr, ?_⟩
        injection h with h
        subst h
        exact ⟨rfl, rfl, rfl, rfl⟩

theorem aggregatePrices_none_iff (listings : List Listing) :
    aggregatePrices listings = none ↔ eligibleOf listings = [] := by
  unfold aggregatePrices
  split
  · rename_i hemp
    simp only [List.isEmpty_iff] at hemp
    subst hemp
    simp [eligibleOf]
  · split
    · rename_i hel
      simp only [List.isEmpty_iff] at hel
      simp [hel]
    · rename_i hel
      simp only [List.isEmpty_iff] at hel
      split
      · rename_i hpr
        simp only [List.isEmpty_iff] at hpr
        exact absurd hpr (pricesOf_ne_nil hel)
      · simp [hel]

/-- On a successful return the rounded aggregates are ordered. -/
theorem aggregatePrices_ordered {listings : List Listing} {r : PriceAggregate}
    (h : aggregatePrices listings = some r) :
    r.min_price ≤ r.avg_price ∧ r.avg_price ≤ r.max_price := by
  obtain ⟨hne, hmin, havg, hmax, _⟩ := aggregatePrices_some_spec h
  constructor
  · rw [hmin, havg]
    exact round2_mono (listMin_le_avg hne)
  · rw [havg, hmax]
    exact round2_mono (avg_le_listMax hne)

/-! ## Claims C1 and C10: the aggregator contract -/

/-- C1, counterexample.  The listing below — `type="event"`, no notes,
`retail_price = 135.505`, `available_quantity = 2.5`, `splits = [2]` — does
*not* satisfy the eligibility predicate as the claim words it (the quantity
is not an integer), yet `aggregatePrices` does not return `null` on it; and
the returned `min_price` is the two-decimal rounding `135.51`, not the exact
minimum `135.505` of the raw prices.  Both halves of claim C1 therefore fail
as stated. -/
theorem aggregatePrices_claim_cex :
    specEligibleListing
        { type := "event", retail_price := some (135505/1000),
          available_quantity := some (5/2), splits := some [2],
          public_notes := none, notes := none } = false ∧
    aggregatePrices
        [{ type := "event", retail_price := some (135505/1000),
           available_quantity := some (5/2), splits := some [2],
           public_notes := none, notes := none }] ≠ none ∧
    ∀ r, aggregatePrices
        [{ type := "event", retail_price := some (135505/1000),
           available_quantity := some (5/2), splits := some [2],
           public_notes := none, notes := none }] = some r →
      r.min_price ≠ 135505/1000 := by
  have hden : ((5:ℚ)/2).den = 2 := by norm_num
  have hb : isBuyableListing
      { type := "event", retail_price := some (135505/1000),
        available_quantity := some (5/2), splits := some [2],
        public_notes := none, notes := none } = true := by decide
  have he : eligibleListing
      { type := "event", retail_price := some (135505/1000),
        available_quantity := some (5/2), splits := some [2],
        public_notes := none, notes := none } = true := by
    simp only [eligibleListing, hb]
    norm_num
  refine ⟨?_, ?_, ?_⟩
  · simp only [specEligibleListing, hden]
    norm_num
  · rw [Ne, aggregatePrices_none_iff]
    simp [eligibleOf, he]
  · intro r hr
    obtain ⟨_, hmin, _, _, _⟩ := aggregatePrices_some_spec hr
    have hps : pricesOf
        [{ type := "event", retail_price := some (135505/1000),
           available_quantity := some (5/2), splits := some [2],
           public_notes := none, notes := none }] = [135505/1000] := by
      simp only [pricesOf, eligibleOf]
      rw [List.filter_cons]
      simp only [he, List.filter_nil, if_true]
      simp [priceOf]
    rw [hmin, hps]
    show round2 (listMin [135505/1000]) ≠ 135505/1000
    have hlm : listMin [(135505:ℚ)/1000] = 135505/1000 := rfl
    rw [hlm]
    have harg : ((135505:ℚ)/1000 * 100 + 1/2) = 13551 := by norm_num
    rw [round2, harg]
    norm_num [jsFloor]

/-- C1 (amended): `aggregatePrices` returns `null` exactly when no listing
passes the *code's* eligibility filter (which, unlike the claim's wording,
does not require `available_quantity` to be an integer — any number within
`[2, 10000)` passes); on success it returns the two-decimal rounding of
min, mean and max of the eligible retail prices (min and max are rounded
too, not only the mean), `listing_count` is the number of eligible
listings, and `min_price ≤ avg_price ≤ max_price`. -/
theorem aggregatePrices_contract (listings : List Listing) :
    (aggregatePrices listings = none ↔ eligibleOf listings = []) ∧
    (∀ r, aggregatePrices listings = some r →
      r.min_price = round2 (listMin (pricesOf listings)) ∧
      r.avg_price = round2 (jsSum (pricesOf listings) / (pricesOf listings).length) ∧
      r.max_price = round2 (listMax (pricesOf listings)) ∧
      r.listing_count = (eligibleOf listings).length ∧
      r.min_price ≤ r.avg_price ∧ r.avg_price ≤ r.max_price) := by
  refine ⟨aggregatePrices_none_iff listings, fun r hr => ?_⟩
  obtain ⟨_, hmin, havg, hmax, hcount⟩ := aggregatePrices_some_spec hr
  obtain ⟨h1, h2⟩ := aggregatePrices_ordered hr
  exact ⟨hmin, havg, hmax, hcount, h1, h2⟩

/-- C1, witness: the amended contract evaluated on a single plainly
eligible listing (`retail_price = 120`, `available_quantity = 4`,
`splits = [2]`). -/
theorem aggregatePrices_contract_witness :
    aggregatePrices
        [{ type := "event", retail_price := some 120,
           available_quantity := some 4, splits := some [2],
           public_notes := none, notes := none }] ≠ none ∧
    ∀ r, aggregatePrices
        [{ type := "event", retail_price := some 120,
           available_quantity := some 4, splits := some [2],
           public_notes := none, notes := none }] = some r →
      r.listing_count = 1 ∧ r.min_price ≤ r.avg_price := by
  have hc := aggregatePrices_contract
    [{ type := "event", retail_price := some 120,
       available_quantity := some 4, splits := some [2],
       public_notes := none, notes := none }]
  have hb : isBuyableListing
      { type := "event", retail_price := some 120,
        available_quantity := some 4, splits := some [2],
        public_notes := none, notes := none } = true := by decide
  have he : eligibleListing
      { type := "event", retail_price := some 120,
        available_quantity := some 4, splits := some [2],
        public_notes := none, notes := none } = true := by
    simp only [eligibleListing, hb]
    norm_num
  have hel : eligibleOf
      [{ type := "event", retail_price := some 120,
         available_quantity := some 4, splits := some [2],
         public_notes := none, notes := none }] =
      [{ type := "event", retail_price := some 120,
         available_quantity := some 4, splits := some [2],
         public_notes := none, notes := none }] := by
    simp [eligibleOf, he]
  constructor
  · rw [Ne, hc.1, hel]
    simp
  · intro r hr
    obtain ⟨_, _, _, hcount, hord, _⟩ := hc.2 r hr
    refine ⟨?_, hord⟩
    rw [hcount, hel]
    rfl

/-- C10: on every successful return, `min_price` and `max_price` are the
two-decimal roundings of the exact minimum and maximum of the eligible
retail prices — so each may differ from the exact value by at most half a
cent — and the rounded values stay ordered, `min_price ≤ avg_price ≤
max_price`, because two-decimal rounding is monotone. -/
theorem aggregatePrices_minmax_rounded (listings : List Listing) (r : PriceAggregate)
    (h : aggregatePrices listings = some r) :
    r.min_price = round2 (listMin (pricesOf listings)) ∧
    r.max_price = round2 (listMax (pricesOf listings)) ∧
    |r.min_price - listMin (pricesOf listings)| ≤ 1 / 200 ∧
    |r.max_price - listMax (pricesOf listings)| ≤ 1 / 200 ∧
    r.min_price ≤ r.avg_price ∧ r.avg_price ≤ r.max_price := by
  obtain ⟨_, hmin, _, hmax, _⟩ := aggregatePrices_some_spec h
  obtain ⟨h1, h2⟩ := aggregatePrices_ordered h
  refine ⟨hmin, hmax, ?_, ?_, h1, h2⟩
  · rw [hmin]; exact abs_round2_sub _
  · rw [hmax]; exact abs_round2_sub _

/-- C10, witness: the rounding bound evaluated on a concrete listing whose
price `135.505` actually moves under two-decimal rounding. -/
theorem aggregatePrices_minmax_rounded_witness :
    |round2 (135505/1000) - 135505/1000| ≤ 1 / 200 ∧
    round2 ((135505:ℚ)/1000) = 13551/100 := by
  have hb : isBuyableListing
      { type := "event", retail_price := some (135505/1000),
        available_quantity := some 4, splits := some [2],
        public_notes := none, notes := none } = true := by decide
  have he : eligibleListing
      { type := "event", retail_price := some (135505/1000),
        available_quantity := some 4, splits := some [2],
        public_notes := none, notes := none } = true := by
    simp only [eligibleListing, hb]
    norm_num
  have hel : eligibleOf
      [{ type := "event", retail_price := some (135505/1000),
         available_quantity := some 4, splits := some [2],
         public_notes := none, notes := none }] =
      [{ type := "event", retail_price := some (135505/1000),
         available_quantity := some 4, splits := some [2],
         public_notes := none, notes := none }] := by
    simp [eligibleOf, he]
  have hps : pricesOf
      [{ type := "event", retail_price := some (135505/1000),
         available_quantity := some 4, splits := some [2],
         public_notes := none, notes := none }] = [135505/1000] := by
    simp only [pricesOf, hel]
    simp [priceOf]
  have hagg : aggregatePrices
      [{ type := "event", retail_price := some (135505/1000),
         available_quantity := some 4, splits := some [2],
         public_notes := none, notes := none }] =
      some { min_price := round2 (listMin [135505/1000])
             avg_price := round2 (jsSum [135505/1000] / 1)
             max_price := round2 (listMax [135505/1000])
             listing_count := 1 } := by
    unfold aggregatePrices
    rw [hel, hps]
    simp
  have h10 := aggregatePrices_minmax_rounded _ _ hagg
  rw [hps] at h10
  constructor
  · simpa [listMin] using h10.2.2.1
  · have harg : ((135505:ℚ)/1000 * 100 + 1/2) = 13551 := by norm_num
    rw [round2, harg]
    norm_num [jsFloor]

/-! ## Database rows and the retention pass
     (`hourly-poller/index.ts`, `applyEndedEventHourlyRetention`)

Timestamps here are the values the relational store holds, modelled as epoch
milliseconds; SQL `NULL` is `none`.  The SQL comparisons `<` on ISO strings
order exactly like the underlying instants. -/

structure EventRow where
  te_event_id : ℤ
  ends_at : Option ℤ
  ended_at : Option ℤ
deriving DecidableEq

structure HourlyRow where
  te_event_id : ℤ
  captured_at_hour : ℤ
deriving DecidableEq

structure DailyRow where
  te_event_id : ℤ
  date : ℤ
deriving DecidableEq

structure DbState where
  events : List EventRow
  hourly : List HourlyRow
  daily : List DailyRow
deriving DecidableEq

structure RetentionResult where
  retentionDays : ℕ
  cutoffMs : ℤ
  endedEventCount : ℕ
  deletedHourlyRows : ℕ
deriving DecidableEq

/-- The two retention selects: events with `ended_at` set, united (as a
`Set`, so deduplicated) with events whose `ended_at` is null and whose
`ends_at` lies strictly in the past. -/
def endedEventIds (events : List EventRow) (nowMs : ℤ) : List ℤ :=
  let withEndedAt :=
    (events.filter fun e => e.ended_at.isSome).map (·.te_event_id)
  let endsAtPast :=
    (events.filter fun e =>
      e.ended_at.isNone &&
        (match e.ends_at with
         | some t => decide (t < nowMs)
         | none => false)).map (·.te_event_id)
  (withEndedAt ++ endsAtPast).foldl
    (fun acc i => if i ∈ acc then acc else acc ++ [i]) []

/-- The hourly row is doomed when its event ended and it is older than the
cutoff (`te_event_id IN ended AND captured_at_hour < cutoff`). -/
def doomedHourly (endedIds : List ℤ) (cutoffMs : ℤ) (h : HourlyRow) : Bool :=
  decide (h.te_event_id ∈ endedIds) && decide (h.captured_at_hour < cutoffMs)

/-- `cutoff ← now − retentionDays` (in milliseconds). -/
def hourlyCutoff (nowMs : ℤ) (retentionDays : ℕ) : ℤ :=
  nowMs - (retentionDays : ℤ) * 86400000

/-- `applyEndedEventHourlyRetention` (`hourly-poller/index.ts:144`): compute
the cutoff, collect ended events, delete their hourly rows older than the
cutoff, and report counts.  Daily rows are not touched. -/
def applyEndedEventHourlyRetention (s : DbState) (nowMs : ℤ) (retentionDays : ℕ) :
    DbState × RetentionResult :=
  if (endedEventIds s.events nowMs).isEmpty then
    (s, { retentionDays := retentionDays, cutoffMs := hourlyCutoff nowMs retentionDays,
          endedEventCount := 0, deletedHourlyRows := 0 })
  else
    ({ s with hourly := s.hourly.filter fun h =>
          !doomedHourly (endedEventIds s.events nowMs) (hourlyCutoff nowMs retentionDays) h },
     { retentionDays := retentionDays, cutoffMs := hourlyCutoff nowMs retentionDays,
       endedEventCount := (endedEventIds s.events nowMs).length,
       deletedHourlyRows := (s.hourly.filter
          (doomedHourly (endedEventIds s.events nowMs) (hourlyCutoff nowMs retentionDays))).length })

theorem retention_events_eq (s : DbState) (nowMs : ℤ) (days : ℕ) :
    (applyEndedEventHourlyRetention s nowMs days).1.events = s.events := by
  unfold applyEndedEventHourlyRetention
  split <;> rfl

theorem retention_daily_eq (s : DbState) (nowMs : ℤ) (days : ℕ) :
    (applyEndedEventHourlyRetention s nowMs days).1.daily = s.daily := by
  unfold applyEndedEventHourlyRetention
  split <;> rfl

/-- The hourly table the first pass leaves behind (else branch). -/
theorem retention_hourly_eq (s : DbState) (nowMs : ℤ) (days : ℕ)
    (h : (endedEventIds s.events nowMs).isEmpty = false) :
    (applyEndedEventHourlyRetention s nowMs days).1.hourly =
      s.hourly.filter fun x =>
        !doomedHourly (endedEventIds s.events nowMs) (hourlyCutoff nowMs days) x := by
  unfold applyEndedEventHourlyRetention
  simp [h]

theorem retention_state_id_of_empty (s : DbState) (nowMs : ℤ) (days : ℕ)
    (h : (endedEventIds s.events nowMs).isEmpty = true) :
    applyEndedEventHourlyRetention s nowMs days =
      (s, { retentionDays := days, cutoffMs := hourlyCutoff nowMs days,
            endedEventCount := 0, deletedHourlyRows := 0 }) := by
  unfold applyEndedEventHourlyRetention
  simp [h]

theorem retention_else_eq (s : DbState) (nowMs : ℤ) (days : ℕ)
    (h : (endedEventIds s.events nowMs).isEmpty = false) :
    applyEndedEventHourlyRetention s nowMs days =
      ({ s with hourly := s.hourly.filter fun x =>
            !doomedHourly (endedEventIds s.events nowMs) (hourlyCutoff nowMs days) x },
       { retentionDays := days, cutoffMs := hourlyCutoff nowMs days,
         endedEventCount := (endedEventIds s.events nowMs).length,
         deletedHourlyRows := (s.hourly.filter
            (doomedHourly (endedEventIds s.events nowMs) (hourlyCutoff nowMs days))).length }) := by
  unfold applyEndedEventHourlyRetention
  simp [h]

/-! ## Claim C7: retention idempotence -/

/-- C7: the retention pass is idempotent — with the same clock and horizon,
a second pass deletes zero hourly rows and leaves the database state
unchanged; and no pass ever touches the daily rows. -/
theorem retention_idempotent (s : DbState) (nowMs : ℤ) (days : ℕ) :
    (applyEndedEventHourlyRetention
        (applyEndedEventHourlyRetention s nowMs days).1 nowMs days).2.deletedHourlyRows = 0 ∧
    (applyEndedEventHourlyRetention
        (applyEndedEventHourlyRetention s nowMs days).1 nowMs days).1 =
      (applyEndedEventHourlyRetention s nowMs days).1 ∧
    (applyEndedEventHourlyRetention s nowMs days).1.daily = s.daily := by
  have hev := retention_events_eq s nowMs days
  by_cases hids : (endedEventIds s.events nowMs).isEmpty = true
  · have h1 := retention_state_id_of_empty s nowMs days hids
    rw [h1]
    simp only [h1]
    exact ⟨trivial, trivial, trivial⟩
  · have hids' : (endedEventIds s.events nowMs).isEmpty = false :=
      Bool.eq_false_iff.mpr hids
    have hhour := retention_hourly_eq s nowMs days hids'
    have hids1 : (endedEventIds
        (applyEndedEventHourlyRetention s nowMs days).1.events nowMs).isEmpty = false := by
      rw [hev]; exact hids'
    have h2 := retention_else_eq
      (applyEndedEventHourlyRetention s nowMs days).1 nowMs days hids1
    rw [hev] at h2
    have hdel2 : ((applyEndedEventHourlyRetention s nowMs days).1.hourly.filter
        (doomedHourly (endedEventIds s.events nowMs) (hourlyCutoff nowMs days))) = [] := by
      rw [hhour, List.filter_filter]
      have hfun : ∀ x ∈ s.hourly,
          (doomedHourly (endedEventIds s.events nowMs) (hourlyCutoff nowMs days) x &&
           !doomedHourly (endedEventIds s.events nowMs) (hourlyCutoff nowMs days) x) = false :=
        fun x _ => by
          cases doomedHourly (endedEventIds s.events nowMs) (hourlyCutoff nowMs days) x <;> rfl
      rw [List.filter_congr hfun]
      exact List.filter_false _
    have hkeep2 : ((applyEndedEventHourlyRetention s nowMs days).1.hourly.filter
        fun x => !doomedHourly (endedEventIds s.events nowMs) (hourlyCutoff nowMs days) x) =
        (applyEndedEventHourlyRetention s nowMs days).1.hourly := by
      rw [hhour, List.filter_filter]
      have hfun : ∀ x ∈ s.hourly,
          (!doomedHourly (endedEventIds s.events nowMs) (hourlyCutoff nowMs days) x &&
           !doomedHourly (endedEventIds s.events nowMs) (hourlyCutoff nowMs days) x) =
          !doomedHourly (endedEventIds s.events nowMs) (hourlyCutoff nowMs days) x :=
        fun x _ => by
          cases doomedHourly (endedEventIds s.events nowMs) (hourlyCutoff nowMs days) x <;> rfl
      rw [List.filter_congr hfun]
    refine ⟨?_, ?_, retention_daily_eq s nowMs days⟩
    · rw [h2]
      simp [hdel2]
    · rw [h2, hkeep2, ← hev]

/-! ## The run coordinator (`hourly-poller/index.ts`, `Deno.serve` handler)

The `poller_runs` row: `events_total/succeeded/failed` are nullable in the
schema, `events_processed` and `batch_size` are not.  The run-level skipped
count has no dedicated column; the handler records it as
`debug.skipped_count`, modelled here as `debugSkippedCount`.  `started_at`
defaults to the insert time. -/

structure RunRow where
  hour_bucket : String
  status : String
  batch_size : ℕ
  events_processed : ℕ
  events_total : Option ℕ
  events_succeeded : Option ℕ
  events_failed : Option ℕ
  started_at : ℤ
  finished_at : Option ℤ
  error_sample : Option String
  debugSkippedCount : Option ℕ
deriving DecidableEq

def BATCH_SIZE : ℕ := 10

def MAX_RETRIES : ℕ := 3

/-- 15 minutes, the stale-lock window (`Date.now() - 15 * 60 * 1000`). -/
def staleLockWindowMs : ℤ := 15 * 60 * 1000

/-- The row the lock-acquisition INSERT creates:
`{hour_bucket, status: "started", batch_size, events_processed: 0}`, with
`started_at` defaulting to now and every other column at its default. -/
def freshRunRow (hb : String) (nowMs : ℤ) : RunRow :=
  { hour_bucket := hb
    status := "started"
    batch_size := BATCH_SIZE
    events_processed := 0
    events_total := none
    events_succeeded := none
    events_failed := none
    started_at := nowMs
    finished_at := none
    error_sample := none
    debugSkippedCount := none }

/-- The stale-lock recovery UPDATE (`hourly-poller/index.ts:608`): mark the
previous attempt failed with `error_sample = stale_lock_timeout`, restart
the clock and the progress counter, and deliberately keep `finished_at`
NULL so a later crash can be recovered again. -/
def reclaimUpdate (r : RunRow) (nowMs : ℤ) : RunRow :=
  { r with
    status := "failed"
    error_sample := some "stale_lock_timeout"
    started_at := nowMs
    batch_size := BATCH_SIZE
    events_processed := 0 }

inductive LockOutcome where
  | acquired (row : RunRow)
  | skippedAlreadyRan
  | skippedAlreadyRunning
  | reclaimed (row : RunRow)
deriving DecidableEq

/-- The hour-bucket lock acquisition (`hourly-poller/index.ts:552-647`).
`existing` is the `poller_runs` row already holding this `hour_bucket`
(`none` when the INSERT wins the unique key).  On conflict: a finished row
means `already_ran`; an unfinished row started before `now − 15min` is
reclaimed by the conditional UPDATE (whose `finished_at IS NULL` guard the
row satisfies in this branch, so only the stale-start predicate decides);
otherwise `already_running`. -/
def acquireHourLock (existing : Option RunRow) (nowMs : ℤ) (hb : String) : LockOutcome :=
  match existing with
  | none => .acquired (freshRunRow hb nowMs)
  | some r =>
      if r.finished_at.isSome then .skippedAlreadyRan
      else if r.started_at < nowMs - staleLockWindowMs then
        .reclaimed (reclaimUpdate r nowMs)
      else .skippedAlreadyRunning

/-! ## Claim C2: the lock-acquisition protocol -/

/-- C2: on a conflicting hour bucket, a finished row yields
`already_ran`; an unfinished stale row (started before `now − 15min`) is
reclaimed — the row becomes `status=failed`,
`error_sample=stale_lock_timeout`, `started_at=now`, `events_processed=0`
with `finished_at` still NULL — and a second acquisition attempt against
the reclaimed row at the same clock gets `already_running`, so exactly one
invocation reclaims; any other unfinished row yields `already_running`. -/
theorem lock_protocol (r : RunRow) (nowMs : ℤ) (hb : String) :
    (r.finished_at.isSome → acquireHourLock (some r) nowMs hb = .skippedAlreadyRan) ∧
    (r.finished_at = none → r.started_at < nowMs - staleLockWindowMs →
      acquireHourLock (some r) nowMs hb = .reclaimed (reclaimUpdate r nowMs) ∧
      (reclaimUpdate r nowMs).status = "failed" ∧
      (reclaimUpdate r nowMs).error_sample = some "stale_lock_timeout" ∧
      (reclaimUpdate r nowMs).started_at = nowMs ∧
      (reclaimUpdate r nowMs).events_processed = 0 ∧
      (reclaimUpdate r nowMs).finished_at = none ∧
      acquireHourLock (some (reclaimUpdate r nowMs)) nowMs hb = .skippedAlreadyRunning) ∧
    (r.finished_at = none → ¬ r.started_at < nowMs - staleLockWindowMs →
      acquireHourLock (some r) nowMs hb = .skippedAlreadyRunning) := by
  refine ⟨fun hf => ?_, fun hf hs => ?_, fun hf hs => ?_⟩
  · simp [acquireHourLock, hf]
  · have hf' : r.finished_at = none := hf
    refine ⟨by simp [acquireHourLock, hf', hs], rfl, rfl, rfl, rfl, hf, ?_⟩
    have hnl : ¬ (reclaimUpdate r nowMs).started_at < nowMs - staleLockWindowMs := by
      show ¬ nowMs < nowMs - staleLockWindowMs
      unfold staleLockWindowMs
      omega
    simp only [acquireHourLock, reclaimUpdate]
    rw [if_neg (by simp [hf']), if_neg (by simpa [reclaimUpdate] using hnl)]
  · simp [acquireHourLock, hf, hs]

/-- C2, witness: an unfinished row started at 0 is stale at
`now = 1000000 ms` and is reclaimed exactly once. -/
theorem lock_protocol_witness :
    acquireHourLock (some (freshRunRow "2026-02-03T04:00:00.000Z" 0)) 1000000
        "2026-02-03T04:00:00.000Z" =
      .reclaimed (reclaimUpdate (freshRunRow "2026-02-03T04:00:00.000Z" 0) 1000000) ∧
    acquireHourLock
        (some (reclaimUpdate (freshRunRow "2026-02-03T04:00:00.000Z" 0) 1000000)) 1000000
        "2026-02-03T04:00:00.000Z" = .skippedAlreadyRunning := by
  have h := (lock_protocol (freshRunRow "2026-02-03T04:00:00.000Z" 0) 1000000
    "2026-02-03T04:00:00.000Z").2.1 rfl (by decide)
  exact ⟨h.1, h.2.2.2.2.2.2⟩

/-! ## The run-row lifecycle and the counter invariant
    (`hourly-poller/index.ts`, steps 2–5 and the outer catch) -/

inductive EvStatus where
  | succeeded
  | failed
  | skipped
deriving DecidableEq

/-- The per-event result `processEvent` resolves with — one per event,
whatever happens, because `processEvent` catches its own errors and
`Promise.allSettled` maps any residual rejection to a `failed` entry. -/
structure ProcessResult where
  te_event_id : ℤ
  status : EvStatus
  error : Option String
deriving DecidableEq

/-- Step 2 of the handler: `UPDATE poller_runs SET events_total = n`. -/
def setEventsTotal (r : RunRow) (n : ℕ) : RunRow := { r with events_total := some n }

/-- `processBatch`: one settled result per event, in order; batching only
controls concurrency, not the multiset of results. -/
def processBatchResults (events : List ℤ) (outcome : ℤ → ProcessResult) :
    List ProcessResult :=
  events.map outcome

def countSucceeded (results : List ProcessResult) : ℕ :=
  (results.filter fun x => x.status = EvStatus.succeeded).length

def countFailed (results : List ProcessResult) : ℕ :=
  (results.filter fun x => x.status = EvStatus.failed).length

def countSkipped (results : List ProcessResult) : ℕ :=
  (results.filter fun x => x.status = EvStatus.skipped).length

/-- Step 4's classification of the final run status. -/
def classifyRun (nSucceeded nFailed : ℕ) : String :=
  if nFailed = 0 then "succeeded"
  else if 0 < nSucceeded then "partial"
  else "failed"

/-- Step 5: the final `poller_runs` update — status, `finished_at`,
counters, first error sample, and the debug skipped count. -/
def finalizeRun (r : RunRow) (results : List ProcessResult) (nowMs : ℤ) : RunRow :=
  { r with
    status := classifyRun (countSucceeded results) (countFailed results)
    finished_at := some nowMs
    events_processed := results.length
    events_succeeded := some (countSucceeded results)
    events_failed := some (countFailed results)
    error_sample := (results.find? fun x => x.error.isSome).bind (·.error)
    debugSkippedCount := some (countSkipped results) }

/-- The early finish when no events are active: mark succeeded with zero
counters (the handler wrote `events_total = 0` just before). -/
def finalizeEmptyRun (r : RunRow) (nowMs : ℤ) : RunRow :=
  { r with
    status := "succeeded"
    finished_at := some nowMs
    events_succeeded := some 0
    events_failed := some 0
    debugSkippedCount := some 0 }

/-- The outer catch's best-effort failure update
(`hourly-poller/index.ts:880-889`): only `status`, `finished_at` and
`error_sample` are written; every counter keeps its previous value. -/
def bestEffortFailUpdate (r : RunRow) (nowMs : ℤ) (msg : String) : RunRow :=
  { r with
    status := "failed"
    finished_at := some nowMs
    error_sample := some msg }

/-- The run row the coordinator's normal path leaves behind: insert, set
`events_total`, then either the empty-events early finish or full batch
processing and finalization. -/
def coordinatorFinalRow (hb : String) (t0 : ℤ) (events : List ℤ)
    (outcome : ℤ → ProcessResult) (t1 : ℤ) : RunRow :=
  if events.isEmpty then
    finalizeEmptyRun (setEventsTotal (freshRunRow hb t0) events.length) t1
  else
    finalizeRun (setEventsTotal (freshRunRow hb t0) events.length)
      (processBatchResults events outcome) t1

/-- The counter invariant claim C8 asserts of a finished run row. -/
def runBalanced (r : RunRow) : Prop :=
  ∃ t s f k, r.events_total = some t ∧ r.events_succeeded = some s ∧
    r.events_failed = some f ∧ r.debugSkippedCount = some k ∧ t = s + f + k

theorem counts_partition (results : List ProcessResult) :
    countSucceeded results + countFailed results + countSkipped results =
      results.length := by
  induction results with
  | nil => rfl
  | cons a as ih =>
      unfold countSucceeded countFailed countSkipped at *
      cases ha : a.status <;>
        simp [List.filter_cons, ha, List.length_cons] <;> omega

/-! ## Claim C8: the counter invariant -/

/-- C8, counterexample.  A run that crashed after `events_total` was set to
5 (the handler writes it right after the stop-check filter) and was then
finalized by the outer catch's best-effort update has `finished_at` set but
`events_succeeded`/`events_failed` still NULL and no skipped count, so
`events_total = events_succeeded + events_failed + events_skipped` fails —
both read strictly (no counters to satisfy it) and reading NULL as 0
(5 ≠ 0). -/
theorem pollerRun_balance_cex :
    (bestEffortFailUpdate
        (setEventsTotal (freshRunRow "2026-02-03T04:00:00.000Z" 0) 5)
        3600000 "Failed to update events_processed").finished_at.isSome ∧
    ¬ runBalanced (bestEffortFailUpdate
        (setEventsTotal (freshRunRow "2026-02-03T04:00:00.000Z" 0) 5)
        3600000 "Failed to update events_processed") ∧
    (bestEffortFailUpdate
        (setEventsTotal (freshRunRow "2026-02-03T04:00:00.000Z" 0) 5)
        3600000 "Failed to update events_processed").events_total = some 5 ∧
    (bestEffortFailUpdate
        (setEventsTotal (freshRunRow "2026-02-03T04:00:00.000Z" 0) 5)
        3600000 "Failed to update events_processed").events_succeeded = none := by
  refine ⟨rfl, ?_, rfl, rfl⟩
  rintro ⟨t, s, f, k, -, hs, -, -, -⟩
  exact Option.noConfusion hs

/-- C8 (amended): every run row finalized by the coordinator's *normal*
path — the empty-events early finish or the step-5 final update — has
`finished_at` set and satisfies
`events_total = events_succeeded + events_failed + events_skipped` (the
skipped count being `debug.skipped_count`; no `events_skipped` column
exists).  The best-effort failure path writes only `status`, `finished_at`
and `error_sample`, so it preserves the equation only when no counter had
been written yet, and a crash after `events_total` was set can leave a
finished row that violates it. -/
theorem pollerRun_balance (hb : String) (t0 : ℤ) (events : List ℤ)
    (outcome : ℤ → ProcessResult) (t1 : ℤ) :
    (coordinatorFinalRow hb t0 events outcome t1).finished_at = some t1 ∧
    runBalanced (coordinatorFinalRow hb t0 events outcome t1) := by
  unfold coordinatorFinalRow
  by_cases hemp : events.isEmpty = true
  · simp only [hemp, if_true]
    refine ⟨rfl, 0, 0, 0, 0, ?_, rfl, rfl, rfl, rfl⟩
    show some events.length = some 0
    rw [List.isEmpty_iff.mp hemp]
    rfl
  · simp only [hemp, if_false]
    refine ⟨rfl, events.length,
      countSucceeded (processBatchResults events outcome),
      countFailed (processBatchResults events outcome),
      countSkipped (processBatchResults events outcome),
      rfl, rfl, rfl, rfl, ?_⟩
    rw [counts_partition]
    unfold processBatchResults
    rw [List.length_map]

/-! ## The retry wrapper (`hourly-poller/core.ts`, `fetchWithRetry`,
lines 145–178) and the TE client's error message
(`_shared/te-api.ts`, `get`, lines 98–106)

An attempt either resolves or rejects with an `Error`; retryability is a
*substring test on the error message*.  `fn i` is the outcome of attempt
`i` (zero-based). -/

deriving instance DecidableEq for Except

/-- `err.message?.includes("429") || ... || err.message?.includes("timeout")`
— the five case-sensitive substrings that make an error retryable. -/
def isRetryableMsg (msg : String) : Bool :=
  strIncludes msg "429" || strIncludes msg "500" || strIncludes msg "502" ||
    strIncludes msg "503" || strIncludes msg "timeout"

/-- `1000 * Math.pow(2, attempt)`. -/
def backoffDelayMs (attempt : ℕ) : ℕ := 1000 * 2 ^ attempt

/-- The message a failed TE HTTP response is thrown with:
`TE API Error: <status> <statusText> - <errorText>`. -/
def teApiErrorMessage (status : ℕ) (statusText errorText : String) : String :=
  "TE API Error: " ++ toString status ++ " " ++ statusText ++ " - " ++ errorText

/-- The retry loop body, with explicit fuel (`maxRetries - attempt`; the
zero-fuel default mirrors the dead `throw lastError` after the loop).
Returns the settled outcome together with the list of backoff delays
actually slept. -/
def retryGo {α : Type} (fn : ℕ → Except String α) (maxRetries : ℕ) :
    ℕ → ℕ → Except String α × List ℕ
  | _, 0 => (.error "", [])
  | attempt, fuel + 1 =>
      match fn attempt with
      | .ok v => (.ok v, [])
      | .error msg =>
          if !isRetryableMsg msg || attempt = maxRetries - 1 then (.error msg, [])
          else
            ((retryGo fn maxRetries (attempt + 1) fuel).1,
             backoffDelayMs attempt :: (retryGo fn maxRetries (attempt + 1) fuel).2)

/-- `fetchWithRetry` (`hourly-poller/core.ts:145`): run the thunk up to
`maxRetries` times, sleeping `1000 * 2^attempt` ms between retryable
failures. -/
def fetchWithRetry {α : Type} (fn : ℕ → Except String α)
    (maxRetries : ℕ := MAX_RETRIES) : Except String α × List ℕ :=
  retryGo fn maxRetries 0 maxRetries

theorem listStartsWith_extend (p : List Char) :
    ∀ h1 h2, listStartsWith p h1 = true → listStartsWith p (h1 ++ h2) = true := by
  induction p with
  | nil => intro h1 h2 _; rfl
  | cons a as ih =>
      intro h1 h2 hs
      cases h1 with
      | nil => exact absurd hs (by simp [listStartsWith])
      | cons b bs =>
          simp only [listStartsWith, Bool.and_eq_true] at hs ⊢
          exact ⟨hs.1, ih bs h2 hs.2⟩

theorem listContainsSub_extend (p : List Char) :
    ∀ h1 h2, listContainsSub p h1 = true → listContainsSub p (h1 ++ h2) = true := by
  intro h1
  induction h1 with
  | nil =>
      intro h2 hc
      have hp : p = [] := by
        cases p with
        | nil => rfl
        | cons c cs => exact absurd hc (by simp [listContainsSub, listStartsWith])
      subst hp
      cases h2 with
      | nil => rfl
      | cons d ds => simp [listContainsSub, listStartsWith]
  | cons b bs ih =>
      intro h2 hc
      simp only [listContainsSub, Bool.or_eq_true] at hc
      rcases hc with hs | hc
      · have := listStartsWith_extend p (b :: bs) h2 hs
        cases p with
        | nil => simp [listContainsSub, listStartsWith]
        | cons c cs =>
            simp only [List.cons_append, listContainsSub, Bool.or_eq_true]
            exact Or.inl (by simpa using this)
      · simp only [List.cons_append, listContainsSub, Bool.or_eq_true]
        cases p with
        | nil => simp [listStartsWith]
        | cons c cs => exact Or.inr (ih h2 hc)

theorem strIncludes_of_left {h1 : String} (pat : String) (h2 : String)
    (h : strIncludes h1 pat = true) : strIncludes (h1 ++ h2) pat = true := by
  unfold strIncludes at *
  rw [String.data_append]
  exact listContainsSub_extend pat.data h1.data h2.data h

/-! ## Claim C3: the retry policy -/

/-- C3, counterexample.  HTTP 408 and 504 failures and plain network
errors are *not* retried: the retry test is a case-sensitive substring
match for `429/500/502/503/timeout` on the error message, and the messages
`TE API Error: 408 Request Timeout - `, `TE API Error: 504 Gateway
Timeout - ` and `fetch failed` contain none of those.  A 408 failure is
thrown immediately with zero backoff sleeps.  And even with retryable
failures the hard cap of 3 attempts allows only two sleeps (1s then 2s);
the 4s delay of the claimed `1s, 2s, 4s` schedule is never slept. -/
theorem fetchWithRetry_claim_cex :
    isRetryableMsg "TE API Error: 408 Request Timeout - " = false ∧
    fetchWithRetry (fun _ => Except.error (α := Unit) "TE API Error: 408 Request Timeout - ")
        MAX_RETRIES =
      (Except.error "TE API Error: 408 Request Timeout - ", []) ∧
    isRetryableMsg "TE API Error: 504 Gateway Timeout - " = false ∧
    isRetryableMsg "fetch failed" = false ∧
    fetchWithRetry (fun _ => Except.error (α := Unit) "TE API Error: 503 Service Unavailable - ")
        MAX_RETRIES =
      (Except.error "TE API Error: 503 Service Unavailable - ", [1000, 2000]) := by
  decide

/-- C3 (amended): a failure is retried if and only if its error message
contains one of the case-sensitive substrings `429`, `500`, `502`, `503`,
`timeout` — so, through the TE client's `TE API Error: <status> …`
message, statuses 429/500/502/503 are always retried while 408, 504,
other 4xx and plain network failures are fatal unless their text happens
to contain such a substring; the backoff before retry `k+1` is
`1000·2^k` ms, so with the hard cap `MAX_RETRIES = 3` an all-retryable
run sleeps 1s then 2s and then throws the last error. -/
theorem fetchWithRetry_policy {α : Type} (fn : ℕ → Except String α) :
    (∀ v, fn 0 = .ok v → fetchWithRetry fn MAX_RETRIES = (.ok v, [])) ∧
    (∀ msg, fn 0 = .error msg → isRetryableMsg msg = false →
      fetchWithRetry fn MAX_RETRIES = (.error msg, [])) ∧
    (∀ m0 m1 m2, fn 0 = .error m0 → fn 1 = .error m1 → fn 2 = .error m2 →
      isRetryableMsg m0 = true → isRetryableMsg m1 = true →
      fetchWithRetry fn MAX_RETRIES = (.error m2, [1000, 2000])) ∧
    (∀ st b, isRetryableMsg (teApiErrorMessage 429 st b) = true) ∧
    (∀ st b, isRetryableMsg (teApiErrorMessage 500 st b) = true) ∧
    (∀ st b, isRetryableMsg (teApiErrorMessage 502 st b) = true) ∧
    (∀ st b, isRetryableMsg (teApiErrorMessage 503 st b) = true) ∧
    (∀ k, backoffDelayMs k = 1000 * 2 ^ k) := by
  have hmsg : ∀ (d : String) (st b : String),
      strIncludes ("TE API Error: " ++ d ++ " " ++ st ++ " - " ++ b) d = true → True :=
    fun _ _ _ _ => trivial
  refine ⟨?_, ?_, ?_, ?_, ?_, ?_, ?_, fun _ => rfl⟩
  · intro v h0
    unfold fetchWithRetry MAX_RETRIES retryGo
    rw [h0]
  · intro msg h0 hnr
    unfold fetchWithRetry MAX_RETRIES retryGo
    rw [h0]
    simp [hnr]
  · intro m0 m1 m2 h0 h1 h2 hr0 hr1
    unfold fetchWithRetry MAX_RETRIES
    unfold retryGo
    rw [h0]
    simp only [hr0, Bool.not_true, Bool.false_or, show (0 : ℕ) ≠ 3 - 1 by decide,
      if_false, decide_eq_true_eq, if_neg (show ¬ (0 = 3 - 1) by decide)]
    unfold retryGo
    rw [h1]
    simp only [hr1, Bool.not_true, Bool.false_or,
      if_neg (show ¬ (1 = 3 - 1) by decide)]
    unfold retryGo
    rw [h2]
    simp [backoffDelayMs]
  all_goals
    intro st b
    unfold teApiErrorMessage isRetryableMsg
    refine Bool.or_eq_true_iff.mpr ?_
  · exact Or.inl <| Bool.or_eq_true_iff.mpr <| Or.inl <|
      Bool.or_eq_true_iff.mpr <| Or.inl <| Bool.or_eq_true_iff.mpr <| Or.inl <| by
        have : ("TE API Error: " ++ toString (429:ℕ) ++ " " ++ st ++ " - " ++ b) =
            (("TE API Error: " ++ toString (429:ℕ)) ++ (" " ++ st ++ " - " ++ b)) := by
          simp [String.append_assoc]
        rw [this]
        exact strIncludes_of_left _ _ (by decide)
  · exact Or.inl <| Bool.or_eq_true_iff.mpr <| Or.inl <|
      Bool.or_eq_true_iff.mpr <| Or.inl <| Bool.or_eq_true_iff.mpr <| Or.inr <| by
        have : ("TE API Error: " ++ toString (500:ℕ) ++ " " ++ st ++ " - " ++ b) =
            (("TE API Error: " ++ toString (500:ℕ)) ++ (" " ++ st ++ " - " ++ b)) := by
          simp [String.append_assoc]
        rw [this]
        exact strIncludes_of_left _ _ (by decide)
  · exact Or.inl <| Bool.or_eq_true_iff.mpr <| Or.inl <|
      Bool.or_eq_true_iff.mpr <| Or.inr <| by
        have : ("TE API Error: " ++ toString (502:ℕ) ++ " " ++ st ++ " - " ++ b) =
            (("TE API Error: " ++ toString (502:ℕ)) ++ (" " ++ st ++ " - " ++ b)) := by
          simp [String.append_assoc]
        rw [this]
        exact strIncludes_of_left _ _ (by decide)
  · exact Or.inl <| Bool.or_eq_true_iff.mpr <| Or.inr <| by
        have : ("TE API Error: " ++ toString (503:ℕ) ++ " " ++ st ++ " - " ++ b) =
            (("TE API Error: " ++ toString (503:ℕ)) ++ (" " ++ st ++ " - " ++ b)) := by
          simp [String.append_assoc]
        rw [this]
        exact strIncludes_of_left _ _ (by decide)

/-- C3, witness: three consecutive 503 failures exhaust the cap with
exactly the sleeps 1s, 2s. -/
theorem fetchWithRetry_policy_witness :
    fetchWithRetry (fun _ => Except.error (α := Unit) "TE API Error: 503 x - y")
        MAX_RETRIES =
      (Except.error "TE API Error: 503 x - y", [1000, 2000]) :=
  (fetchWithRetry_policy (fun _ => Except.error (α := Unit) "TE API Error: 503 x - y")).2.2.1
    _ _ _ rfl rfl rfl (by decide) (by decide)

/-! ## The host date functions

`new Date(s).getTime()`, `new Date(ms).toISOString()` and the
`Intl.DateTimeFormat` renderers are JavaScript-runtime behaviour, not code
of this repository, so they are explicit parameters of the embedding.
`parseMs s = none` models a `NaN` parse; `validTz` models whether the
`Intl.DateTimeFormat` constructor accepts the time zone name (it throws a
`RangeError` on an unknown zone); the renderer fields are total because
`Intl` formatting succeeds on every valid date. -/

structure DateOps where
  parseMs : String → Option ℤ
  toIso : ℤ → String
  validTz : String → Bool
  weekdayName : String → ℤ → String
  dayNumText : String → ℤ → String
  monthName : String → ℤ → String
  timeText : String → ℤ → String

/-! ## The active-event stop-check
(`hourly-poller/core.ts:415-428` and `hourly-poller/index.ts:666-679`,
both verbatim the same filter)

`ends_at`/`ended_at` hold the stored timestamp strings (`none` = SQL NULL;
a stored timestamp is never the empty string, so JavaScript truthiness
coincides with presence). -/

structure EventSelectionRow where
  te_event_id : ℤ
  title : String
  olt_url : Option String
  polling_enabled : Bool
  ends_at : Option String
  ended_at : Option String
deriving DecidableEq

/-- The stop-check filter predicate, in source order: `polling_enabled`
must hold, `ended_at` must be absent, and a present `ends_at` must either
fail to parse (`NaN` — treated as future) or lie strictly after `now`. -/
def keepActiveEvent (ops : DateOps) (nowMs : ℤ) (e : EventSelectionRow) : Bool :=
  if !e.polling_enabled then false
  else if e.ended_at.isSome then false
  else
    match e.ends_at with
    | none => true
    | some s =>
        match ops.parseMs s with
        | none => true
        | some endsAtMs => decide (endsAtMs > nowMs)

/-- `rows.filter(...)` — the events the poller will process. -/
def activeEvents (ops : DateOps) (nowMs : ℤ) (rows : List EventSelectionRow) :
    List EventSelectionRow :=
  rows.filter (keepActiveEvent ops nowMs)

/-- A `/listings` call the poller issues to the TE client. -/
structure TeListingsRequest where
  path : String
  event_id : ℤ
  type : String
deriving DecidableEq

/-- The TE calls one poller invocation makes: exactly one
`GET /listings {event_id, type: "event"}` per event surviving the
stop-check (`processEvent` via `processBatch` over the filtered list). -/
def pollerTeRequests (ops : DateOps) (nowMs : ℤ) (rows : List EventSelectionRow) :
    List TeListingsRequest :=
  (activeEvents ops nowMs rows).map fun e =>
    { path := "/listings", event_id := e.te_event_id, type := "event" }

/-! ## Claim C4: event selection and the stop-check -/

/-- A concrete `DateOps` whose parser rejects every string; used to
evaluate the universally quantified theorems at a closed instance. -/
def rejectAllDateOps : DateOps :=
  { parseMs := fun _ => none, toIso := fun _ => "", validTz := fun _ => true,
    weekdayName := fun _ _ => "", dayNumText := fun _ _ => "",
    monthName := fun _ _ => "", timeText := fun _ _ => "" }

/-- C4: a stored row is selected iff `polling_enabled` is true, `ended_at`
is null, and `ends_at` is null, unparseable (treated as future), or
strictly later than now; and the TE client receives a `/listings` request
exactly for the selected rows — never for a row failing the stop-check
(given the table's distinct primary keys). -/
theorem poller_stop_check (ops : DateOps) (nowMs : ℤ) (rows : List EventSelectionRow) :
    (∀ e, keepActiveEvent ops nowMs e = true ↔
      (e.polling_enabled = true ∧ e.ended_at = none ∧
        (e.ends_at = none ∨
         (∃ s, e.ends_at = some s ∧ ops.parseMs s = none) ∨
         (∃ s ms, e.ends_at = some s ∧ ops.parseMs s = some ms ∧ nowMs < ms)))) ∧
    (∀ req, req ∈ pollerTeRequests ops nowMs rows ↔
      ∃ e ∈ rows, keepActiveEvent ops nowMs e = true ∧
        req = { path := "/listings", event_id := e.te_event_id, type := "event" }) ∧
    (rows.Pairwise (fun a b => a.te_event_id ≠ b.te_event_id) →
      ∀ e ∈ rows, keepActiveEvent ops nowMs e = false →
        ∀ req ∈ pollerTeRequests ops nowMs rows, req.event_id ≠ e.te_event_id) := by
  have hmem : ∀ req, req ∈ pollerTeRequests ops nowMs rows ↔
      ∃ e ∈ rows, keepActiveEvent ops nowMs e = true ∧
        req = { path := "/listings", event_id := e.te_event_id, type := "event" } := by
    intro req
    unfold pollerTeRequests activeEvents
    simp only [List.mem_map, List.mem_filter]
    constructor
    · rintro ⟨e, ⟨he, hk⟩, rfl⟩
      exact ⟨e, he, hk, rfl⟩
    · rintro ⟨e, he, hk, rfl⟩
      exact ⟨e, ⟨he, hk⟩, rfl⟩
  refine ⟨?_, hmem, ?_⟩
  · intro e
    unfold keepActiveEvent
    cases hp : e.polling_enabled with
    | false => simp [hp]
    | true =>
        cases hd : e.ended_at with
        | some d => simp [hp, hd]
        | none =>
            cases hends : e.ends_at with
            | none => simp [hp, hd, hends]
            | some s =>
                cases hpar : ops.parseMs s with
                | none => simp [hp, hd, hends, hpar]
                | some ms => simp [hp, hd, hends, hpar]
  · intro hdist e he hke req hreq hid
    obtain ⟨e', he', hk', rfl⟩ := (hmem req).mp hreq
    have hid' : e'.te_event_id = e.te_event_id := by simpa using hid
    rcases eq_or_ne e' e with rfl | hne
    · exact absurd (hk'.symm.trans hke) (by decide)
    · have hsymm : Symmetric
          (fun a b : EventSelectionRow => a.te_event_id ≠ b.te_event_id) :=
        fun a b h heq => h heq.symm
      exact (List.Pairwise.forall hsymm hdist) he' he hne hid'

/-- C4, witness: with a parser that rejects everything, a disabled row is
filtered out while an enabled row with unparseable `ends_at` is selected
(treated as in the future). -/
theorem poller_stop_check_witness :
    keepActiveEvent rejectAllDateOps 0
      { te_event_id := 1, title := "a", olt_url := none, polling_enabled := false,
        ends_at := some "2026-07-04T12:00:00Z", ended_at := none } = false ∧
    keepActiveEvent rejectAllDateOps 0
      { te_event_id := 2, title := "b", olt_url := none, polling_enabled := true,
        ends_at := some "not a date", ended_at := none } = true := by
  constructor
  · cases h : keepActiveEvent rejectAllDateOps 0
        { te_event_id := 1, title := "a", olt_url := none, polling_enabled := false,
          ends_at := some "2026-07-04T12:00:00Z", ended_at := none }
    · rfl
    · have hiff := ((poller_stop_check rejectAllDateOps 0 []).1
        { te_event_id := 1, title := "a", olt_url := none, polling_enabled := false,
          ends_at := some "2026-07-04T12:00:00Z", ended_at := none }).mp h
      exact absurd hiff.1 (by decide)
  · exact ((poller_stop_check rejectAllDateOps 0 []).1
      { te_event_id := 2, title := "b", olt_url := none, polling_enabled := true,
        ends_at := some "not a date", ended_at := none }).mpr
      ⟨rfl, rfl, Or.inr (Or.inl ⟨"not a date", rfl, rfl⟩)⟩

/-! ## UTF-8 and SHA-256 / HMAC / base64
     (the host primitives `TextEncoder`, `crypto.subtle` HMAC-SHA-256 and
     `encodeBase64` the signer composes; implemented concretely so the
     whole signing pipeline is executable)

Bytes are naturals below 256; 32-bit words are naturals reduced mod
`2^32`. -/

def strUtf8Char (c : Char) : List ℕ :=
  if c.toNat < 128 then [c.toNat]
  else if c.toNat < 2048 then [192 + c.toNat / 64, 128 + c.toNat % 64]
  else if c.toNat < 65536 then
    [224 + c.toNat / 4096, 128 + c.toNat / 64 % 64, 128 + c.toNat % 64]
  else
    [240 + c.toNat / 262144, 128 + c.toNat / 4096 % 64,
     128 + c.toNat / 64 % 64, 128 + c.toNat % 64]

/-- `new TextEncoder().encode(s)`. -/
def strUtf8 (s : String) : List ℕ := s.data.flatMap strUtf8Char

def add32 (a b : ℕ) : ℕ := (a + b) % 4294967296

def rotr32 (n x : ℕ) : ℕ := ((x >>> n) ||| (x <<< (32 - n))) % 4294967296

def bsig0 (x : ℕ) : ℕ := rotr32 2 x ^^^ rotr32 13 x ^^^ rotr32 22 x

def bsig1 (x : ℕ) : ℕ := rotr32 6 x ^^^ rotr32 11 x ^^^ rotr32 25 x

def ssig0 (x : ℕ) : ℕ := rotr32 7 x ^^^ rotr32 18 x ^^^ (x >>> 3)

def ssig1 (x : ℕ) : ℕ := rotr32 17 x ^^^ rotr32 19 x ^^^ (x >>> 10)

def chF (x y z : ℕ) : ℕ := (x &&& y) ^^^ ((x ^^^ 0xFFFFFFFF) &&& z)

def majF (x y z : ℕ) : ℕ := (x &&& y) ^^^ (x &&& z) ^^^ (y &&& z)

def sha256H0 : List ℕ :=
  [1779033703, 3144134277, 1013904242, 2773480762,
   1359893119, 2600822924, 528734635, 1541459225]

def sha256K : List ℕ :=
  [1116352408, 1899447441, 3049323471, 3921009573, 961987163,
   1508970993, 2453635748, 2870763221, 3624381080, 310598401,
   607225278, 1426881987, 1925078388, 2162078206, 2614888103,
   3248222580, 3835390401, 4022224774, 264347078, 604807628,
   770255983, 1249150122, 1555081692, 1996064986, 2554220882,
   2821834349, 2952996808, 3210313671, 3336571891, 3584528711,
   113926993, 338241895, 666307205, 773529912, 1294757372,
   1396182291, 1695183700, 1986661051, 2177026350, 2456956037,
   2730485921, 2820302411, 3259730800, 3345764771, 3516065817,
   3600352804, 4094571909, 275423344, 430227734, 506948616,
   659060556, 883997877, 958139571, 1322822218, 1537002063,
   1747873779, 1955562222, 2024104815, 2227730452, 2361852424,
   2428436474, 2756734187, 3204031479, 3329325298]

def lenBytes8 (bitLen : ℕ) : List ℕ :=
  [bitLen / 2^56 % 256, bitLen / 2^48 % 256, bitLen / 2^40 % 256,
   bitLen / 2^32 % 256, bitLen / 2^24 % 256, bitLen / 2^16 % 256,
   bitLen / 2^8 % 256, bitLen % 256]

/-- Merkle–Damgård padding: `0x80`, zeros to 56 mod 64, 64-bit length. -/
def sha256Pad (msg : List ℕ) : List ℕ :=
  msg ++ [0x80] ++ List.replicate ((55 + 64 - msg.length % 64) % 64) 0 ++
    lenBytes8 (8 * msg.length)

def chunks64Go : ℕ → List ℕ → List (List ℕ)
  | _, [] => []
  | 0, _ => []
  | fuel + 1, l => l.take 64 :: chunks64Go fuel (l.drop 64)

def chunks64 (l : List ℕ) : List (List ℕ) := chunks64Go l.length l

def bytesToWords : List ℕ → List ℕ
  | b0 :: b1 :: b2 :: b3 :: rest =>
      (b0 * 16777216 + b1 * 65536 + b2 * 256 + b3) :: bytesToWords rest
  | _ => []

def extendSchedule : List ℕ → ℕ → List ℕ
  | w, 0 => w
  | w, k + 1 =>
      extendSchedule
        (w ++ [add32 (add32 (ssig1 (w.getD (w.length - 2) 0)) (w.getD (w.length - 7) 0))
               (add32 (ssig0 (w.getD (w.length - 15) 0)) (w.getD (w.length - 16) 0))]) k

def compressRound (s : ℕ × ℕ × ℕ × ℕ × ℕ × ℕ × ℕ × ℕ) (wk : ℕ × ℕ) :
    ℕ × ℕ × ℕ × ℕ × ℕ × ℕ × ℕ × ℕ :=
  match s with
  | (a, b, c, d, e, f, g, h) =>
      (add32 (add32 h (add32 (bsig1 e) (add32 (chF e f g) (add32 wk.2 wk.1))))
         (add32 (bsig0 a) (majF a b c)),
       a, b, c,
       add32 d (add32 h (add32 (bsig1 e) (add32 (chF e f g) (add32 wk.2 wk.1)))),
       e, f, g)

def processSha256Block (hs : List ℕ) (block : List ℕ) : List ℕ :=
  match (List.zip (extendSchedule (bytesToWords block) 48) sha256K).foldl compressRound
      (hs.getD 0 0, hs.getD 1 0, hs.getD 2 0, hs.getD 3 0,
       hs.getD 4 0, hs.getD 5 0, hs.getD 6 0, hs.getD 7 0) with
  | (a, b, c, d, e, f, g, h) =>
      [add32 (hs.getD 0 0) a, add32 (hs.getD 1 0) b, add32 (hs.getD 2 0) c,
       add32 (hs.getD 3 0) d, add32 (hs.getD 4 0) e, add32 (hs.getD 5 0) f,
       add32 (hs.getD 6 0) g, add32 (hs.getD 7 0) h]

def wordBytes (w : ℕ) : List ℕ :=
  [w / 16777216 % 256, w / 65536 % 256, w / 256 % 256, w % 256]

/-- SHA-256 over a byte list (checked during development against the FIPS
test vectors for `""`, `"abc"` and the RFC 2202-style HMAC vectors). -/
def sha256 (msg : List ℕ) : List ℕ :=
  ((chunks64 (sha256Pad msg)).foldl processSha256Block sha256H0).flatMap wordBytes

/-- HMAC-SHA-256 (`crypto.subtle.sign("HMAC", …)`), block size 64. -/
def hmacSha256 (key msg : List ℕ) : List ℕ :=
  sha256 (((if key.length > 64 then sha256 key else key) ++
      List.replicate (64 - (if key.length > 64 then sha256 key else key).length) 0).map
        (fun b => b ^^^ 0x5c) ++
    sha256 (((if key.length > 64 then sha256 key else key) ++
      List.replicate (64 - (if key.length > 64 then sha256 key else key).length) 0).map
        (fun b => b ^^^ 0x36) ++ msg))

def base64Chars : List Char :=
  "ABCDEFGHIJKLMNOPQRSTUVWXYZabcdefghijklmnopqrstuvwxyz0123456789+/".data

def b64c (n : ℕ) : Char := base64Chars.getD n 'A'

/-- `encodeBase64` from `jsr:@std/encoding` (RFC 4648 with padding). -/
def encodeBase64 : List ℕ → List Char
  | [] => []
  | [b1] => [b64c (b1 / 4), b64c (b1 % 4 * 16), '=', '=']
  | [b1, b2] => [b64c (b1 / 4), b64c (b1 % 4 * 16 + b2 / 16), b64c (b2 % 16 * 4), '=']
  | b1 :: b2 :: b3 :: rest =>
      b64c (b1 / 4) :: b64c (b1 % 4 * 16 + b2 / 16) :: b64c (b2 % 16 * 4 + b3 / 64) ::
        b64c (b3 % 64) :: encodeBase64 rest

/-! ## The signer (`_shared/te-api.ts`, `generateSignature`, lines 20–64)

`URLSearchParams.toString()` uses the `application/x-www-form-urlencoded`
serializer: ASCII alphanumerics and `*-._` stay, a space becomes `+`, and
every other character's UTF-8 bytes are `%XX`-escaped (uppercase hex).
The source then rewrites every `+` to `%20`.  JavaScript sorts the keys
with the default string comparison (code-unit order, which agrees with
Lean's `String` order on the basic plane). -/

def isFormSafe (c : Char) : Bool :=
  c.isAlphanum || c = '*' || c = '-' || c = '.' || c = '_'

def hexDigit : ℕ → Char
  | 0 => '0' | 1 => '1' | 2 => '2' | 3 => '3' | 4 => '4' | 5 => '5'
  | 6 => '6' | 7 => '7' | 8 => '8' | 9 => '9' | 10 => 'A' | 11 => 'B'
  | 12 => 'C' | 13 => 'D' | 14 => 'E' | 15 => 'F' | _ => '0'

def percentBytes (c : Char) : List Char :=
  (strUtf8Char c).flatMap fun b => ['%', hexDigit (b / 16), hexDigit (b % 16)]

/-- One character under the form-urlencoded serializer (space → `+`). -/
def encodeFormChar (c : Char) : List Char :=
  if isFormSafe c then [c] else if c = ' ' then ['+'] else percentBytes c

def formEncode (s : String) : List Char := s.data.flatMap encodeFormChar

/-- `.replace(/\x2b/g, "%20")` — the global rewrite of `+` to `%20`. -/
def replacePlus (l : List Char) : List Char :=
  l.flatMap fun c => if c = '+' then ['%', '2', '0'] else [c]

/-- One character of the *net* encoding the signer produces: space goes to
`%20`, never `+`. -/
def encodeFormChar20 (c : Char) : List Char :=
  if isFormSafe c then [c] else if c = ' ' then ['%', '2', '0'] else percentBytes c

/-- `Object.keys(params).sort()`. -/
def sortedKeys (params : List (String × String)) : List String :=
  List.insertionSort (· ≤ ·) (params.map Prod.fst)

/-- Access `params[k]` (the record has unique keys). -/
def jsLookup (params : List (String × String)) (k : String) : String :=
  ((params.find? fun p => p.1 == k).map Prod.snd).getD ""

/-- `new URLSearchParams(sortedParams).toString()`. -/
def urlSearchParamsString (params : List (String × String)) : List Char :=
  List.intercalate ['&']
    ((sortedKeys params).map fun k =>
      formEncode k ++ ['='] ++ formEncode (jsLookup params k))

/-- The `<query>` of the canonical string: always starts with `?`, even
with zero parameters. -/
def canonicalQueryString (params : List (String × String)) : String :=
  if params.length > 0 then "?" ++ ⟨replacePlus (urlSearchParamsString params)⟩
  else "?"

def cleanPath (path : String) : String :=
  if listStartsWith ['/'] path.data then path else "/" ++ path

/-- `"<METHOD> <hostname><path><query>"`. -/
def stringToSign (method hostname path : String) (params : List (String × String)) :
    String :=
  method ++ " " ++ hostname ++ cleanPath path ++ canonicalQueryString params

/-- `generateSignature`: base64 of the HMAC-SHA-256 of the canonical
string under the API secret. -/
def generateSignature (method hostname path : String)
    (params : List (String × String)) (secret : String) : String :=
  ⟨encodeBase64 (hmacSha256 (strUtf8 secret) (strUtf8 (stringToSign method hostname path params)))⟩

theorem hexDigit_ne_plus (n : ℕ) : hexDigit n ≠ '+' := by
  unfold hexDigit
  split <;> decide

theorem percentBytes_no_plus (c : Char) : ∀ x ∈ percentBytes c, x ≠ '+' := by
  intro x hx
  simp only [percentBytes, List.mem_flatMap] at hx
  obtain ⟨b, -, hb⟩ := hx
  simp only [List.mem_cons, List.not_mem_nil, or_false] at hb
  rcases hb with rfl | rfl | rfl
  · decide
  · exact hexDigit_ne_plus _
  · exact hexDigit_ne_plus _

theorem replacePlus_no_plus (l : List Char) : ∀ c ∈ replacePlus l, c ≠ '+' := by
  intro c hc
  simp only [replacePlus, List.mem_flatMap] at hc
  obtain ⟨a, -, ha⟩ := hc
  by_cases hpa : a = '+'
  · rw [if_pos hpa] at ha
    simp only [List.mem_cons, List.not_mem_nil, or_false] at ha
    rcases ha with rfl | rfl | rfl <;> decide
  · rw [if_neg hpa] at ha
    simp only [List.mem_singleton] at ha
    exact ha ▸ hpa

theorem replacePlus_id_of_no_plus {l : List Char} (h : ∀ c ∈ l, c ≠ '+') :
    replacePlus l = l := by
  induction l with
  | nil => rfl
  | cons a as ih =>
      have ha := h a (List.mem_cons_self _ _)
      simp only [replacePlus, List.flatMap_cons, if_neg ha]
      rw [show as.flatMap (fun c => if c = '+' then ['%', '2', '0'] else [c]) =
        replacePlus as from rfl, ih fun c hc => h c (List.mem_cons_of_mem _ hc)]
      rfl

theorem replacePlus_encodeFormChar (c : Char) :
    replacePlus (encodeFormChar c) = encodeFormChar20 c := by
  unfold encodeFormChar encodeFormChar20
  by_cases hs : isFormSafe c
  · rw [if_pos hs, if_pos hs]
    have hne : c ≠ '+' := by
      intro h
      rw [h] at hs
      exact absurd hs (by decide)
    exact replacePlus_id_of_no_plus fun x hx => by
      simp only [List.mem_singleton] at hx
      exact hx ▸ hne
  · rw [if_neg hs, if_neg hs]
    by_cases hsp : c = ' '
    · rw [if_pos hsp, if_pos hsp]
      rfl
    · rw [if_neg hsp, if_neg hsp]
      exact replacePlus_id_of_no_plus (percentBytes_no_plus c)

theorem replacePlus_append (a b : List Char) :
    replacePlus (a ++ b) = replacePlus a ++ replacePlus b := by
  unfold replacePlus
  exact List.flatMap_append a b _

/-- The two-phase encoding (form-urlencode, then rewrite `+`) equals the
direct per-character encoding whose space case is `%20`. -/
theorem replacePlus_formEncode (s : String) :
    replacePlus (formEncode s) = s.data.flatMap encodeFormChar20 := by
  unfold formEncode
  induction s.data with
  | nil => rfl
  | cons a as ih =>
      rw [List.flatMap_cons, List.flatMap_cons, replacePlus_append,
        replacePlus_encodeFormChar, ih]

theorem jsLookup_perm {params params' : List (String × String)}
    (hp : params.Perm params') (hnd : (params.map Prod.fst).Nodup) (k : String) :
    jsLookup params k = jsLookup params' k := by
  unfold jsLookup
  cases hf : params.find? (fun pr => pr.1 == k) with
  | none =>
      cases hf' : params'.find? (fun pr => pr.1 == k) with
      | none => rfl
      | some qr =>
          have hq : qr ∈ params := hp.mem_iff.mpr (List.mem_of_find?_eq_some hf')
          have := List.find?_eq_none.mp hf qr hq
          exact absurd (List.find?_some hf') this
  | some pr =>
      have hpmem : pr ∈ params := List.mem_of_find?_eq_some hf
      have hpk := List.find?_some hf
      cases hf' : params'.find? (fun pr => pr.1 == k) with
      | none =>
          have := List.find?_eq_none.mp hf' pr (hp.mem_iff.mp hpmem)
          exact absurd hpk this
      | some qr =>
          have hqmem : qr ∈ params := hp.mem_iff.mpr (List.mem_of_find?_eq_some hf')
          have hqk := List.find?_some hf'
          have hpq : pr = qr := by
            refine List.inj_on_of_nodup_map hnd hpmem hqmem ?_
            rw [beq_iff_eq.mp hpk, beq_iff_eq.mp hqk]
          rw [hpq]

/-! ## Claim C5: the signing contract -/

/-- C5: the signer emits the base64 of the HMAC-SHA-256, under the secret,
of `"<METHOD> <hostname><path><query>"`; the query always begins with `?`
(also with zero parameters), the keys are used in sorted order, a space is
encoded `%20` and the query never contains `+`; and the signature is a
function of the parameter *record* — any reordering of the same
(uniquely-keyed) pairs signs to the byte-equal string. -/
theorem signer_contract (method hostname path : String)
    (params params' : List (String × String)) (secret : String) :
    (generateSignature method hostname path params secret =
      String.mk (encodeBase64 (hmacSha256 (strUtf8 secret)
        (strUtf8 (stringToSign method hostname path params))))) ∧
    canonicalQueryString [] = "?" ∧
    (∃ rest, canonicalQueryString params = "?" ++ rest) ∧
    List.Sorted (· ≤ ·) (sortedKeys params) ∧
    (sortedKeys params).Perm (params.map Prod.fst) ∧
    (∀ c ∈ (canonicalQueryString params).data, c ≠ '+') ∧
    (∀ s, replacePlus (formEncode s) = s.data.flatMap encodeFormChar20) ∧
    (params.Perm params' → (params.map Prod.fst).Nodup →
      generateSignature method hostname path params secret =
        generateSignature method hostname path params' secret) := by
  refine ⟨rfl, rfl, ?_, ?_, ?_, ?_, replacePlus_formEncode, ?_⟩
  · unfold canonicalQueryString
    by_cases h : params.length > 0
    · exact ⟨⟨replacePlus (urlSearchParamsString params)⟩, by rw [if_pos h]⟩
    · exact ⟨"", by rw [if_neg h]; rfl⟩
  · exact List.sorted_insertionSort _ _
  · exact List.perm_insertionSort _ _
  · intro c hc
    unfold canonicalQueryString at hc
    by_cases h : params.length > 0
    · rw [if_pos h, String.data_append] at hc
      rcases List.mem_append.mp hc with h1 | h2
      · simp only [show ("?" : String).data = ['?'] from rfl, List.mem_singleton] at h1
        exact h1 ▸ (by decide)
      · exact replacePlus_no_plus _ c h2
    · rw [if_neg h] at hc
      simp only [show ("?" : String).data = ['?'] from rfl, List.mem_singleton] at hc
      exact hc ▸ (by decide)
  · intro hp hnd
    have hkeys : sortedKeys params = sortedKeys params' :=
      List.eq_of_perm_of_sorted
        ((List.perm_insertionSort _ _).trans
          ((hp.map Prod.fst).trans (List.perm_insertionSort _ _).symm))
        (List.sorted_insertionSort _ _) (List.sorted_insertionSort _ _)
    have hquery : canonicalQueryString params = canonicalQueryString params' := by
      unfold canonicalQueryString urlSearchParamsString
      rw [hkeys, hp.length_eq,
        List.map_congr_left fun k _ => by rw [jsLookup_perm hp hnd k]]
    unfold generateSignature stringToSign
    rw [hquery]

/-- C5, witness: the parameterless query is the bare `?`, and reordering
the parameter record leaves the signature byte-equal. -/
theorem signer_contract_witness :
    canonicalQueryString [] = "?" ∧
    generateSignature "GET" "api.sandbox.ticketevolution.com" "/v9/listings"
        [("type", "event"), ("event_id", "2")] "secret" =
      generateSignature "GET" "api.sandbox.ticketevolution.com" "/v9/listings"
        [("event_id", "2"), ("type", "event")] "secret" :=
  ⟨(signer_contract "GET" "api.sandbox.ticketevolution.com" "/v9/listings"
      [] [] "secret").2.1,
   (signer_contract "GET" "api.sandbox.ticketevolution.com" "/v9/listings"
      [("type", "event"), ("event_id", "2")] [("event_id", "2"), ("type", "event")]
      "secret").2.2.2.2.2.2.2 (by decide) (by decide)⟩

/-! ## The URL builder (`_shared/olt-url.ts`, `slugify` and
`buildOltEventUrl`, lines 28–125)

The regex passes of `slugify` are implemented as left-to-right scanners
with explicit fuel (each step consumes at least one character).  The
`Intl` date renderers come from `DateOps`; the builder raises exactly
where the JavaScript does: an invalid time zone makes the
`Intl.DateTimeFormat` constructor throw, and an invalid date makes
`formatToParts`/`format` throw — nothing else in the builder throws. -/

def OLT_BASE_URL : String := "https://www.onlylocaltickets.com"

def DEFAULT_TZ : String := "America/Chicago"

def PLACEHOLDER : List Char := "zzztriplehyphenzzz".data

/-- JavaScript `a || b` on a nullable string (empty string is falsy). -/
def jsOrStr (a : Option String) (b : String) : String :=
  match a with
  | some s => if s = "" then b else s
  | none => b

/-- `.trim()`. -/
def trimStr (l : List Char) : List Char :=
  ((l.dropWhile Char.isWhitespace).reverse.dropWhile Char.isWhitespace).reverse

/-- `.replace(/&/g, "and")`. -/
def replaceAmp (l : List Char) : List Char :=
  l.flatMap fun c => if c = '&' then ['a', 'n', 'd'] else [c]

/-- A leading `\s+-\s+` match: the whitespace run, a hyphen, another
whitespace run; returns what follows the match. -/
def spacedHyphenSplit (l : List Char) : Option (List Char) :=
  if (l.takeWhile Char.isWhitespace).isEmpty then none
  else
    match l.drop (l.takeWhile Char.isWhitespace).length with
    | '-' :: rest =>
        if (rest.takeWhile Char.isWhitespace).isEmpty then none
        else some (rest.drop (rest.takeWhile Char.isWhitespace).length)
    | _ => none

/-- `.replace(/\s+-\s+/g, "---")`. -/
def replaceSpacedHyphenGo : ℕ → List Char → List Char
  | _, [] => []
  | 0, l => l
  | fuel + 1, c :: cs =>
      match spacedHyphenSplit (c :: cs) with
      | some rest => '-' :: '-' :: '-' :: replaceSpacedHyphenGo fuel rest
      | none => c :: replaceSpacedHyphenGo fuel cs

def replaceSpacedHyphen (l : List Char) : List Char :=
  replaceSpacedHyphenGo l.length l

/-- Global fixed-string replacement (leftmost, non-overlapping). -/
def replaceAllSubGo (pat repl : List Char) : ℕ → List Char → List Char
  | _, [] => []
  | 0, l => l
  | fuel + 1, c :: cs =>
      if listStartsWith pat (c :: cs) then
        repl ++ replaceAllSubGo pat repl fuel ((c :: cs).drop pat.length)
      else c :: replaceAllSubGo pat repl fuel cs

def replaceAllSub (pat repl l : List Char) : List Char :=
  replaceAllSubGo pat repl l.length l

/-- The character class `[a-z0-9()]`. -/
def isSlugSafe (c : Char) : Bool :=
  ('a'.toNat ≤ c.toNat && c.toNat ≤ 'z'.toNat) || c.isDigit || c = '(' || c = ')'

/-- `.replace(/[^a-z0-9()]+/g, "-")`: each maximal unsafe run becomes one
hyphen. -/
def collapseUnsafeGo : ℕ → List Char → List Char
  | _, [] => []
  | 0, l => l
  | fuel + 1, c :: cs =>
      if isSlugSafe c then c :: collapseUnsafeGo fuel cs
      else '-' :: collapseUnsafeGo fuel ((c :: cs).dropWhile fun x => !isSlugSafe x)

def collapseUnsafe (l : List Char) : List Char := collapseUnsafeGo l.length l

/-- The `-{4,}` global replace: maximal hyphen runs of four or more
collapse to a triple hyphen. -/
def collapseLongHyphenRunsGo : ℕ → List Char → List Char
  | _, [] => []
  | 0, l => l
  | fuel + 1, c :: cs =>
      if c = '-' then
        (if ((c :: cs).takeWhile fun x => x = '-').length ≥ 4 then ['-', '-', '-']
         else (c :: cs).takeWhile fun x => x = '-') ++
          collapseLongHyphenRunsGo fuel ((c :: cs).dropWhile fun x => x = '-')
      else c :: collapseLongHyphenRunsGo fuel cs

def collapseLongHyphenRuns (l : List Char) : List Char :=
  collapseLongHyphenRunsGo l.length l

/-- `.replace(/^-|-$/g, "")`: one leading and one trailing hyphen. -/
def trimEdgeHyphens (l : List Char) : List Char :=
  let l1 := match l with
    | '-' :: rest => rest
    | other => other
  match l1.getLast? with
  | some '-' => l1.dropLast
  | _ => l1

/-- `slugify` (`_shared/olt-url.ts:28`): lowercase, trim, `&`→`and`,
` - `→`---` (protected through the placeholder), unsafe runs→`-`, long
hyphen runs→`---`, double hyphens→single (triple hyphens protected), and
edge hyphens stripped. -/
def slugify (s : Option String) : String :=
  ⟨trimEdgeHyphens
    (replaceAllSub PLACEHOLDER ['-', '-', '-']
      (replaceAllSub ['-', '-'] ['-']
        (replaceAllSub ['-', '-', '-'] PLACEHOLDER
          (collapseLongHyphenRuns
            (replaceAllSub PLACEHOLDER ['-', '-', '-']
              (collapseUnsafe
                (replaceAllSub ['-', '-', '-'] PLACEHOLDER
                  (replaceSpacedHyphen
                    (replaceAmp
                      (trimStr (lowerStr (jsOrStr s "")).data))))))))))⟩

structure TeVenue where
  city : Option String
  state_code : Option String
  state : Option String
  name : Option String
deriving DecidableEq

structure TeCategory where
  short_name : Option String
  slug : Option String
  name : Option String
deriving DecidableEq

/-- A TE event payload as the builder receives it: every field may be
absent at runtime (`id` and `name` missing render as `undefined`/empty,
only a bad date or time zone raises). -/
structure TeEventPayload where
  id : Option ℤ
  name : Option String
  occurs_at : Option String
  venue : Option TeVenue
  category : Option TeCategory
  taxonomy : Option TeCategory
  timezone : Option String
deriving DecidableEq

/-- `(e.category && (short_name || slug || name)) || (e.taxonomy && …) || ""`. -/
def catText (e : TeEventPayload) : String :=
  let tax : String :=
    match e.taxonomy with
    | some t => jsOrStr t.short_name (jsOrStr t.slug (jsOrStr t.name ""))
    | none => ""
  match e.category with
  | some c =>
      let v := jsOrStr c.short_name (jsOrStr c.slug (jsOrStr c.name ""))
      if v = "" then tax else v
  | none => tax

/-- `new Date(e.occurs_at).getTime()` (`undefined` parses to `NaN`). -/
def jsDateMs (ops : DateOps) (s : Option String) : Option ℤ :=
  match s with
  | some str => ops.parseMs str
  | none => none

/-- `time.replace(" ", "-")` — first occurrence only. -/
def replaceFirstSpace : List Char → List Char
  | [] => []
  | c :: cs => if c = ' ' then '-' :: cs else c :: replaceFirstSpace cs

/-- `.replace(/\/$/, "")`. -/
def trimTrailingSlash (s : String) : String :=
  match s.data.getLast? with
  | some '/' => ⟨s.data.dropLast⟩
  | _ => s

/-- `buildOltEventUrl` (`_shared/olt-url.ts:89`): assemble the SEO URL.
It fails precisely where its JavaScript does: the `Intl.DateTimeFormat`
constructor rejects an invalid time zone, and formatting rejects an
invalid date (`occurs_at` absent or unparseable). -/
def buildOltEventUrl (ops : DateOps) (e : TeEventPayload)
    (baseUrl : String := OLT_BASE_URL) (quantity : ℕ := 0) : Except String String :=
  if ops.validTz (jsOrStr e.timezone DEFAULT_TZ) = false then
    .error ("Invalid time zone specified: " ++ jsOrStr e.timezone DEFAULT_TZ)
  else
    match jsDateMs ops e.occurs_at with
    | none => .error "Invalid time value"
    | some ms =>
        .ok (buildOltUrlParts ops e baseUrl quantity ms)
where
  buildOltUrlParts (ops : DateOps) (e : TeEventPayload) (baseUrl : String)
      (quantity : ℕ) (ms : ℤ) : String :=
    let tz := jsOrStr e.timezone DEFAULT_TZ
    let v : TeVenue := e.venue.getD ⟨none, none, none, none⟩
    let nameSlug := slugify e.name
    let citySlug := slugify v.city
    let stateSlug := lowerStr (jsOrStr v.state_code (jsOrStr v.state ""))
    let venueSlug := slugify v.name
    let dayName := lowerStr (ops.weekdayName tz ms)
    let dayNum := ops.dayNumText tz ms
    let month := lowerStr (ops.monthName tz ms)
    let timeSlug : String := ⟨replaceFirstSpace (lowerStr (ops.timeText tz ms)).data⟩
    let catSlug := slugify (some (catText e))
    let slug := nameSlug ++ "-tickets" ++ "_" ++ citySlug ++ "-" ++ stateSlug ++
      "_" ++ venueSlug ++ "_" ++ dayName ++ "-" ++ dayNum ++ "-" ++ month ++
      "-at-" ++ timeSlug ++ (if catSlug ≠ "" then "_" ++ catSlug else "")
    let eventId := match e.id with
      | some n => toString n
      | none => "undefined"
    trimTrailingSlash (jsOrStr (some baseUrl) OLT_BASE_URL) ++ "/events/" ++ slug ++
      "/" ++ eventId ++
      "?listingsType=event&orderListBy=retail_price%20asc&quantity=" ++ toString quantity

/-! ## Claim C9: the builder's failure behaviour -/

/-- Date functions for closed evaluations: one parseable instant, one
valid zone. -/
def sampleDateOps : DateOps :=
  { parseMs := fun s => if s = "2026-07-04T17:00:00Z" then some 1783270800000 else none
    toIso := fun _ => "2026-07-04T17:00:00Z"
    validTz := fun tz => tz = "America/Chicago"
    weekdayName := fun _ _ => "Saturday"
    dayNumText := fun _ _ => "4"
    monthName := fun _ _ => "July"
    timeText := fun _ _ => "12:00 PM" }

/-- C9, counterexample.  A payload lacking *both* `id` and `name` (but
with a parseable `occurs_at` and default time zone) does not make
`buildOltEventUrl` fail: the builder performs no field validation, so the
URL is built with an empty name slug and the literal `undefined` id. -/
theorem buildOltEventUrl_claim_cex :
    ∃ url, buildOltEventUrl sampleDateOps
      { id := none, name := none, occurs_at := some "2026-07-04T17:00:00Z",
        venue := none, category := none, taxonomy := none, timezone := none }
      OLT_BASE_URL 0 = Except.ok url :=
  ⟨_, rfl⟩

/-- C9 (amended): `buildOltEventUrl` fails precisely when the date
formatter rejects its input — the time zone is invalid, or `occurs_at` is
missing or unparseable (so a payload lacking `occurs_at` does fail, as the
claim says); a payload lacking only `name` or `id` still yields a URL. -/
theorem buildOltEventUrl_fail_iff (ops : DateOps) (e : TeEventPayload)
    (baseUrl : String) (quantity : ℕ) :
    ((∃ msg, buildOltEventUrl ops e baseUrl quantity = Except.error msg) ↔
      (ops.validTz (jsOrStr e.timezone DEFAULT_TZ) = false ∨
       jsDateMs ops e.occurs_at = none)) ∧
    (e.occurs_at = none →
      buildOltEventUrl ops e baseUrl quantity = Except.error "Invalid time value" ∨
      (∃ tz, buildOltEventUrl ops e baseUrl quantity =
        Except.error ("Invalid time zone specified: " ++ tz))) := by
  constructor
  · unfold buildOltEventUrl
    by_cases htz : ops.validTz (jsOrStr e.timezone DEFAULT_TZ) = false
    · simp [htz]
    · simp only [htz, Bool.false_eq_true, if_false, if_neg htz]
      cases hd : jsDateMs ops e.occurs_at with
      | none => simp [htz]
      | some ms => simp [htz]
  · intro hocc
    unfold buildOltEventUrl
    by_cases htz : ops.validTz (jsOrStr e.timezone DEFAULT_TZ) = false
    · exact Or.inr ⟨jsOrStr e.timezone DEFAULT_TZ, by rw [if_pos htz]⟩
    · refine Or.inl ?_
      rw [if_neg htz]
      have hj : jsDateMs ops e.occurs_at = none := by
        rw [hocc]
        rfl
      rw [hj]

/-- C9, witness: the amended failure rule at a payload with no
`occurs_at` and the default (valid) zone. -/
theorem buildOltEventUrl_fail_iff_witness :
    buildOltEventUrl sampleDateOps
      { id := some 1, name := some "Concert", occurs_at := none,
        venue := none, category := none, taxonomy := none, timezone := none }
      OLT_BASE_URL 0 = Except.error "Invalid time value" ∨
    (∃ tz, buildOltEventUrl sampleDateOps
      { id := some 1, name := some "Concert", occurs_at := none,
        venue := none, category := none, taxonomy := none, timezone := none }
      OLT_BASE_URL 0 = Except.error ("Invalid time zone specified: " ++ tz)) :=
  (buildOltEventUrl_fail_iff sampleDateOps
    { id := some 1, name := some "Concert", occurs_at := none,
      venue := none, category := none, taxonomy := none, timezone := none }
    OLT_BASE_URL 0).2 rfl

/-! ## The metadata refresher (`refresh-event-metadata` handler,
per-event loop)

`refreshOne` is one iteration of the handler's `for` loop over the stored
rows: fetch the TE event (already settled in `fetched`), validate, derive
the proposed values, regenerate the URL when required (fail-closed), diff,
and — only when not a dry run and something changed — emit the UPDATE
payload.  The second component is the row update sent to the store;
`none` means the stored row is untouched. -/

structure ExistingEventRow where
  te_event_id : ℤ
  title : String
  starts_at : Option String
  ends_at : Option String
  ended_at : Option String
  polling_enabled : Bool
  olt_url : Option String
deriving DecidableEq

inductive RefreshStatus where
  | updated
  | unchanged
  | error
deriving DecidableEq

structure RefreshResult where
  te_event_id : ℤ
  status : RefreshStatus
  changes : Option (List String)
  error : Option String
deriving DecidableEq

/-- The UPDATE payload of the non-dry-run write. -/
structure EventsUpdate where
  title : String
  starts_at : String
  ends_at : String
  polling_enabled : Bool
  ended_at : Option String
  olt_url : Option String
  updated_at : String
deriving DecidableEq

def EVENT_DURATION_HOURS : ℕ := 4

/-- `!row.olt_url` — JavaScript truthiness (empty string counts as
missing). -/
def oltUrlFalsy (o : Option String) : Bool :=
  match o with
  | none => true
  | some s => s = ""

/-- `!row.olt_url || titleChanged || startsAtChanged || endsAtChanged`. -/
def shouldRegenerateOltUrl (row : ExistingEventRow)
    (title startsAt endsAt : String) : Bool :=
  oltUrlFalsy row.olt_url || decide (row.title ≠ title) ||
    decide (row.starts_at ≠ some startsAt) || decide (row.ends_at ≠ some endsAt)

def refreshErrorResult (id : ℤ) (msg : String) : RefreshResult :=
  { te_event_id := id, status := .error, changes := none, error := some msg }

/-- One iteration of the handler's per-event loop
(`refresh-event-metadata`, lines 130–226). -/
def refreshOne (ops : DateOps) (row : ExistingEventRow)
    (fetched : Except String TeEventPayload) (nowMs : ℤ) (nowIso : String)
    (dryRun : Bool) : RefreshResult × Option EventsUpdate :=
  match fetched with
  | .error msg => (refreshErrorResult row.te_event_id msg, none)
  | .ok te =>
      match te.name, te.occurs_at with
      | some title, some startsAt =>
          if title = "" || startsAt = "" then
            (refreshErrorResult row.te_event_id
              "TE event missing required fields: name/occurs_at", none)
          else
            match ops.parseMs startsAt with
            | none =>
                (refreshErrorResult row.te_event_id
                  ("Invalid occurs_at timestamp: " ++ startsAt), none)
            | some startMs =>
                refreshDerive ops row te nowMs nowIso dryRun title startsAt startMs
      | _, _ =>
          (refreshErrorResult row.te_event_id
            "TE event missing required fields: name/occurs_at", none)
where
  refreshDerive (ops : DateOps) (row : ExistingEventRow) (te : TeEventPayload)
      (nowMs : ℤ) (nowIso : String) (dryRun : Bool)
      (title startsAt : String) (startMs : ℤ) : RefreshResult × Option EventsUpdate :=
    let endsAt := ops.toIso (startMs + EVENT_DURATION_HOURS * 60 * 60 * 1000)
    let hasEnded := match ops.parseMs endsAt with
      | some endsMs => decide (nowMs > endsMs)
      | none => false
    let nextPollingEnabled := if hasEnded then false else row.polling_enabled
    let nextEndedAt := match row.ended_at with
      | some x => some x
      | none => if hasEnded then some nowIso else none
    match (if shouldRegenerateOltUrl row title startsAt endsAt then
        (buildOltEventUrl ops te).map some
      else .ok row.olt_url) with
    | .error msg => (refreshErrorResult row.te_event_id msg, none)
    | .ok nextOltUrl =>
        let changedFields :=
          (if row.title ≠ title then ["title"] else []) ++
          (if row.starts_at ≠ some startsAt then ["starts_at"] else []) ++
          (if row.ends_at ≠ some endsAt then ["ends_at"] else []) ++
          (if row.polling_enabled ≠ nextPollingEnabled then ["polling_enabled"] else []) ++
          (if row.ended_at ≠ nextEndedAt then ["ended_at"] else []) ++
          (if row.olt_url ≠ nextOltUrl then ["olt_url"] else [])
        if changedFields.isEmpty then
          ({ te_event_id := row.te_event_id, status := .unchanged,
             changes := none, error := none }, none)
        else
          ({ te_event_id := row.te_event_id, status := .updated,
             changes := some changedFields, error := none },
           if dryRun then none
           else some { title := title, starts_at := startsAt, ends_at := endsAt,
                       polling_enabled := nextPollingEnabled, ended_at := nextEndedAt,
                       olt_url := nextOltUrl, updated_at := nowIso })

/-- Apply the per-event UPDATE to the stored row (`none` = no write). -/
def applyEventsUpdate (row : ExistingEventRow) : Option EventsUpdate → ExistingEventRow
  | none => row
  | some u =>
      { row with
        title := u.title
        starts_at := some u.starts_at
        ends_at := some u.ends_at
        polling_enabled := u.polling_enabled
        ended_at := u.ended_at
        olt_url := u.olt_url }

/-- The whole loop: each stored row is processed independently, one
result per row, errors included. -/
def refreshAll (ops : DateOps) (rows : List ExistingEventRow)
    (fetch : ℤ → Except String TeEventPayload) (nowMs : ℤ) (nowIso : String)
    (dryRun : Bool) : List (RefreshResult × Option EventsUpdate) :=
  rows.map fun row => refreshOne ops row (fetch row.te_event_id) nowMs nowIso dryRun

/-! ## Claim C6: fail-closed URL regeneration -/

/-- C6: when regeneration is required (`olt_url` missing or any of
title/starts_at/ends_at changed) and the URL builder fails, the event is
reported `status=error` with the builder's message and *no* update payload
is produced, so the stored row is unchanged; and the loop still yields one
result per row, each row's outcome independent of the others. -/
theorem metadata_fail_closed (ops : DateOps) (row : ExistingEventRow)
    (te : TeEventPayload) (nowMs : ℤ) (nowIso : String) (dryRun : Bool)
    (title startsAt : String) (startMs : ℤ) (msg : String)
    (hname : te.name = some title) (hocc : te.occurs_at = some startsAt)
    (hne : (title = "" || startsAt = "") = false)
    (hparse : ops.parseMs startsAt = some startMs)
    (hregen : shouldRegenerateOltUrl row title startsAt
      (ops.toIso (startMs + EVENT_DURATION_HOURS * 60 * 60 * 1000)) = true)
    (hfail : buildOltEventUrl ops te = Except.error msg) :
    refreshOne ops row (.ok te) nowMs nowIso dryRun =
      (refreshErrorResult row.te_event_id msg, none) ∧
    applyEventsUpdate row (refreshOne ops row (.ok te) nowMs nowIso dryRun).2 = row ∧
    (∀ rows fetch,
      refreshAll ops rows fetch nowMs nowIso dryRun =
        rows.map (fun r => refreshOne ops r (fetch r.te_event_id) nowMs nowIso dryRun) ∧
      (refreshAll ops rows fetch nowMs nowIso dryRun).length = rows.length) := by
  have hone : refreshOne ops row (.ok te) nowMs nowIso dryRun =
      (refreshErrorResult row.te_event_id msg, none) := by
    unfold refreshOne
    dsimp only
    rw [hname, hocc]
    dsimp only
    simp only [hne, Bool.false_eq_true, if_false]
    rw [hparse]
    unfold refreshOne.refreshDerive
    dsimp only
    rw [if_pos hregen, hfail]
    rfl
  refine ⟨hone, ?_, ?_⟩
  · rw [hone]
    rfl
  · intro rows fetch
    exact ⟨rfl, by unfold refreshAll; rw [List.length_map]⟩

/-- C6, witness: a stored row with no `olt_url` (regeneration required)
and a TE payload carrying an invalid time zone — the builder fails, the
event comes back as an error, and the row is left untouched. -/
theorem metadata_fail_closed_witness :
    refreshOne sampleDateOps
      { te_event_id := 7, title := "Concert", starts_at := none, ends_at := none,
        ended_at := none, polling_enabled := true, olt_url := none }
      (.ok { id := some 7, name := some "Concert",
             occurs_at := some "2026-07-04T17:00:00Z", venue := none,
             category := none, taxonomy := none, timezone := some "Mars/Olympus" })
      1783000000000 "2026-06-01T00:00:00.000Z" false =
      (refreshErrorResult 7 "Invalid time zone specified: Mars/Olympus", none) ∧
    applyEventsUpdate
      { te_event_id := 7, title := "Concert", starts_at := none, ends_at := none,
        ended_at := none, polling_enabled := true, olt_url := none }
      (refreshOne sampleDateOps
        { te_event_id := 7, title := "Concert", starts_at := none, ends_at := none,
          ended_at := none, polling_enabled := true, olt_url := none }
        (.ok { id := some 7, name := some "Concert",
               occurs_at := some "2026-07-04T17:00:00Z", venue := none,
               category := none, taxonomy := none, timezone := some "Mars/Olympus" })
        1783000000000 "2026-06-01T00:00:00.000Z" false).2 =
      { te_event_id := 7, title := "Concert", starts_at := none, ends_at := none,
        ended_at := none, polling_enabled := true, olt_url := none } := by
  have h := metadata_fail_closed sampleDateOps
    { te_event_id := 7, title := "Concert", starts_at := none, ends_at := none,
      ended_at := none, polling_enabled := true, olt_url := none }
    { id := some 7, name := some "Concert",
      occurs_at := some "2026-07-04T17:00:00Z", venue := none,
      category := none, taxonomy := none, timezone := some "Mars/Olympus" }
    1783000000000 "2026-06-01T00:00:00.000Z" false
    "Concert" "2026-07-04T17:00:00Z" 1783270800000
    "Invalid time zone specified: Mars/Olympus"
    rfl rfl (by decide) rfl (by decide) rfl
  exact ⟨h.1, h.2.1⟩

end HTD
